import Mathlib

/-!
# Directus Terraform provider: reconciliation logic

A shallow embedding of the resource implementations under `internal/resource`
(`role.go`, `setting.go`, `file.go`, `policy.go`, `permission.go`) together with the
properties of the association diff, of the create and update encodings, of the
decoding of identifiers and of the handling of error responses.

Conventions of the embedding:

* a Go value of static type `any` is a `GoAny`;
* a Go `map[string]T` is a `GoMap T`: an association list with distinct keys,
  kept in order of first assignment (Go itself leaves the order unspecified);
* a Go slice is a `List`; a nil slice and an empty slice are both `[]`, which is
  all that `len` and `range` observe;
* the framework attribute types `types.String`, `types.Int64`, `types.Bool`,
  `types.Set` are three-state values (null, unknown, known);
* `client.Directus.Request` is the wire boundary: it is a parameter of every
  operation, a state-passing function from requests to responses.
-/

namespace Directus

/-! ## Go values -/

/-- A Go value of static type `any`, restricted to the dynamic types that occur in
this code base: JSON decoding produces `nil`, `string`, `bool`, `float64`, `[]any`
and `map[string]any`; the payload builders add `int64` and `rawJSON` (a string
type with its own JSON encoding); `int` is only ever tested for by a type assertion.
A finite `float64` is represented by the rational number it denotes. -/
inductive GoAny where
  | nil : GoAny
  | str (s : String) : GoAny
  | bool (b : Bool) : GoAny
  | int (n : Int) : GoAny
  | int64 (n : Int) : GoAny
  | float64 (q : ℚ) : GoAny
  | slice (l : List GoAny) : GoAny
  | map (m : List (String × GoAny)) : GoAny
  | rawJSON (s : String) : GoAny

instance : Inhabited GoAny := ⟨GoAny.nil⟩

/-- A Go `map[string]T`. -/
abbrev GoMap (α : Type) := List (String × α)

namespace GoMap

variable {α : Type}

/-- The assignment `m[k] = v`: overwrite the entry of `k`, or add one. -/
def set : GoMap α → String → α → GoMap α
  | [], k, v => [(k, v)]
  | (k', v') :: m, k, v => if k' = k then (k', v) :: m else (k', v') :: set m k v

/-- The comma-ok lookup `v, ok := m[k]`. -/
def get? (m : GoMap α) (k : String) : Option α := List.lookup k m

/-- The `ok` of `_, ok := m[k]`. -/
def has (m : GoMap α) (k : String) : Bool := (m.get? k).isSome

/-- The keys of the map. -/
def keys (m : GoMap α) : List String := m.map Prod.fst

/-- The keys of a map with keys `ks` after an assignment to the key `k`. -/
def addKey (ks : List String) (k : String) : List String :=
  if k ∈ ks then ks else ks ++ [k]

end GoMap

/-- The index expression `m[k]` on a `map[string]any`: the zero value `nil` when the
key is missing (also on a nil map). -/
def GoAny.index (m : GoMap GoAny) (k : String) : GoAny := (m.get? k).getD GoAny.nil

/-- The type assertion `v.(string)`. -/
def GoAny.asString : GoAny → Option String
  | .str s => some s
  | _ => none

/-- The type assertion `v.([]any)`. -/
def GoAny.asSlice : GoAny → Option (List GoAny)
  | .slice l => some l
  | _ => none

/-- The type assertion `v.(map[string]any)`. -/
def GoAny.asMap : GoAny → Option (GoMap GoAny)
  | .map m => some m
  | _ => none

/-- The type assertion `v.(bool)`. -/
def GoAny.asBool : GoAny → Option Bool
  | .bool b => some b
  | _ => none

/-- The comparison `v == nil` of a value of type `any`. -/
def GoAny.isNil : GoAny → Bool
  | .nil => true
  | _ => false

/-! ## Framework attribute values -/

/-- The framework's `types.String`. -/
inductive TfString where
  | null : TfString
  | unknown : TfString
  | value (s : String) : TfString
  deriving DecidableEq, Repr

/-- Method `types.String.IsNull`. -/
def TfString.IsNull : TfString → Bool
  | .null => true
  | _ => false

/-- Method `types.String.ValueString`: the empty string unless the value is known. -/
def TfString.ValueString : TfString → String
  | .value s => s
  | _ => ""

/-- The framework's `types.Int64`. -/
inductive TfInt64 where
  | null : TfInt64
  | unknown : TfInt64
  | value (n : Int) : TfInt64
  deriving DecidableEq, Repr

/-- Method `types.Int64.IsNull`. -/
def TfInt64.IsNull : TfInt64 → Bool
  | .null => true
  | _ => false

/-- Method `types.Int64.ValueInt64`: zero unless the value is known. -/
def TfInt64.ValueInt64 : TfInt64 → Int
  | .value n => n
  | _ => 0

/-- The framework's `types.Bool`. -/
inductive TfBool where
  | null : TfBool
  | unknown : TfBool
  | value (b : Bool) : TfBool
  deriving DecidableEq, Repr

/-- Method `types.Bool.IsNull`. -/
def TfBool.IsNull : TfBool → Bool
  | .null => true
  | _ => false

/-- Method `types.Bool.ValueBool`: false unless the value is known. -/
def TfBool.ValueBool : TfBool → Bool
  | .value b => b
  | _ => false

/-- The framework's `types.Set` with string elements. -/
inductive TfSet where
  | null : TfSet
  | unknown : TfSet
  | known (elems : List TfString) : TfSet
  deriving DecidableEq, Repr

/-- Method `types.Set.IsNull`. -/
def TfSet.IsNull : TfSet → Bool
  | .null => true
  | _ => false

/-- The conversion of one set element into a Go `string`: a null or unknown element
has no `string` form. -/
def TfString.asGo : TfString → Option String
  | .value s => some s
  | _ => none

/-- The framework's `types.List` with string elements. -/
inductive TfList where
  | null : TfList
  | unknown : TfList
  | known (elems : List TfString) : TfList
  deriving DecidableEq, Repr

/-- Method `types.List.IsNull`. -/
def TfList.IsNull : TfList → Bool
  | .null => true
  | _ => false

/-- Method `types.Set.ElementsAs(ctx, &target, false)` with `target` a `[]string`: the
elements in order, or `none` when the framework reports an error (the set is
unknown, or an element is null or unknown).  A null set leaves the nil slice. -/
def TfSet.ElementsAs : TfSet → Option (List String)
  | .null => some []
  | .unknown => none
  | .known elems => elems.mapM TfString.asGo

/-- Method `types.List.ElementsAs(ctx, &target, false)` with `target` a `[]string`,
as for sets. -/
def TfList.ElementsAs : TfList → Option (List String)
  | .null => some []
  | .unknown => none
  | .known elems => elems.mapM TfString.asGo

/-! ## The wire boundary -/

/-- One call of `client.Directus.Request(ctx, method, path, body)`; `body` is `none`
for a nil body. -/
structure HttpRequest where
  method : String
  path : String
  body : Option GoAny

/-- The part of `*http.Response` the resources look at. -/
structure HttpResponse where
  StatusCode : Int
  Body : String

/-- The remote side as seen through `client.Directus.Request`: from its current state
and a request, either a transport error (its text) or a response, and its next
state. -/
abbrev Transport (σ : Type) := σ → HttpRequest → Except String HttpResponse × σ

/-- Functions of the Go standard library and of the framework that the resources
call; they are parameters of the embedding. -/
structure Lib where
  /-- Go's `fmt.Sprintf("%v", v)`. -/
  fmtV : GoAny → String
  /-- What `json.NewDecoder(body).Decode(&apiErr)` leaves in `apiErr`, a
  `map[string]any`, as a value (the decoding error is discarded by the caller). -/
  decodeErr : String → GoAny
  /-- Go's `json.NewDecoder(body).Decode(&apiResp)` for `apiResp` of type
  `struct{ Data map[string]any }`: the error text, or the decoded `Data`. -/
  decodeData : String → Except String (GoMap GoAny)
  /-- The text `fmt.Sprintf` gives for the diagnostics of a failed `ElementsAs`. -/
  fmtPlanErr : TfSet → String
  /-- Go's `strings.TrimSpace`. -/
  trimSpace : String → String
  /-- Go's `json.Valid` on the bytes of a string. -/
  jsonValid : String → Bool
  /-- Go's `strconv.ParseInt(s, 10, 64)`: the parsed integer, or `none` on an error. -/
  parseInt : String → Option Int
  /-- The result of the conversion `int64(v)` for a `float64` whose truncation does not
  fit into 64 bits; Go leaves it to the implementation. -/
  int64Overflow : ℚ → Int
  /-- Go's `json.Marshal` on a decoded JSON value, as a string (its error is discarded by
  the callers). -/
  jsonMarshal : GoAny → String
  /-- Whether Go's `json.Marshal` returns an error on the value. -/
  jsonMarshalErr : GoAny → Bool

/-- One error diagnostic: `Diagnostics.AddError(summary, detail)`. -/
structure Diagnostic where
  summary : String
  detail : String
  deriving DecidableEq, Repr

/-! ## `role.go`: helpers -/

/-- The function `str`. -/
def str (lib : Lib) : GoAny → String
  | .str t => t
  | .nil => ""
  | t => lib.fmtV t

/-- The function `nullableStr`. -/
def nullableStr (v : TfString) : GoAny :=
  if v.IsNull || v.ValueString == "" then GoAny.nil else GoAny.str v.ValueString

/-- The function `parseResp`.  `outNil` tells whether `out == nil`; the result is the
returned error, or the `Data` decoded into `out` (the nil map when `out == nil`). -/
def parseResp (lib : Lib) (resp : HttpResponse) (outNil : Bool) : Except String (GoMap GoAny) :=
  if resp.StatusCode ≥ 300 then
    let apiErr := lib.decodeErr resp.Body
    .error ("directus api " ++ toString resp.StatusCode ++ ": " ++ lib.fmtV apiErr)
  else if outNil then
    .ok []
  else
    lib.decodeData resp.Body

/-- Go's `strings.Contains(s, substr)`. -/
def strings.Contains (s substr : String) : Bool :=
  decide (List.IsInfix substr.toList s.toList)

/-- The function `isNotFound`, on the text of the error. -/
def isNotFound (err : String) : Bool := strings.Contains err "404"

/-- The method `rawJSON.MarshalJSON`: the error text, or the encoding. -/
def rawJSON.MarshalJSON (lib : Lib) (r : String) : Except String String :=
  if lib.trimSpace r = "" then
    .ok "null"
  else if !lib.jsonValid r then
    .error "invalid json string provided"
  else
    .ok r

/-- The function `jsonRaw`. -/
def jsonRaw (s : String) : GoAny := GoAny.rawJSON s

/-- The conversion `int64(v)` of a `float64`: truncation toward zero. -/
def int64OfFloat64 (lib : Lib) (v : ℚ) : Int :=
  let t := v.num.tdiv v.den
  if -(2 : Int) ^ 63 ≤ t ∧ t < (2 : Int) ^ 63 then t else lib.int64Overflow v

/-- The function `strPtrToType`. -/
def strPtrToType (lib : Lib) (v : GoAny) : TfString :=
  match v with
  | .nil => .null
  | .str s => if s = "" then .null else .value s
  | v => if lib.jsonMarshalErr v then .null else .value (lib.jsonMarshal v)

/-- The list with each of its elements once, at the place of its first occurrence: what
"exactly once, in first-occurrence order" means for the observed policy IDs. -/
def firstOccurrences : List String → List String
  | [] => []
  | a :: l => a :: (firstOccurrences l).filter (fun b => decide (b ≠ a))

/-! ## `role.go`: the role resource -/

/-- The struct `RoleModel`. -/
structure RoleModel where
  ID : TfString
  Name : TfString
  Icon : TfString
  Description : TfString
  Policies : TfSet
  deriving DecidableEq, Repr

/-- What an operation did: the requests it passed to the client, in order, the error
diagnostics it added, the model it wrote with `resp.State.Set` (if it got there), and
the remote side afterwards. -/
structure OpResult (σ : Type) (μ : Type) where
  requests : List HttpRequest
  diags : List Diagnostic
  stateSet : Option μ
  remote : σ

/-- What an operation that may drop the resource did: as `OpResult`, with `removed`
telling whether it called `resp.State.RemoveResource`. -/
structure Outcome (σ : Type) (μ : Type) where
  requests : List HttpRequest
  diags : List Diagnostic
  stateSet : Option μ
  removed : Bool
  remote : σ

namespace RoleResource

/-- The membership sets of `Update`, `currentSet` and `desiredSet`: the loop
`for _, id := range ids { set[id] = struct{}{} }` on a fresh map. -/
def memberSet (ids : List String) : GoMap Unit :=
  ids.foldl (fun set id => set.set id ()) []

/-- The association record `{"role": roleID, "policy": {"id": id}}` appended by
`Update` to `creates` and to `deletes`. -/
def assoc (roleID : String) (id : String) : GoAny :=
  .map [("role", .str roleID), ("policy", .map [("id", .str id)])]

/-- The `creates` of `Update`: the loop over `desired` that appends an association
for every ID without an entry in `currentSet`. -/
def creates (roleID : String) (desired current : List String) : List GoAny :=
  let currentSet := memberSet current
  desired.foldl
    (fun creates id => if !currentSet.has id then creates ++ [assoc roleID id] else creates) []

/-- The `deletes` of `Update`: the loop over `current` that appends an association
for every ID without an entry in `desiredSet`. -/
def deletes (roleID : String) (desired current : List String) : List GoAny :=
  let desiredSet := memberSet desired
  current.foldl
    (fun deletes id => if !desiredSet.has id then deletes ++ [assoc roleID id] else deletes) []

/-- The `current` of `Update`: the policy IDs read off the `policies` array of the
fetched record. -/
def current (lib : Lib) (data : GoMap GoAny) : List String :=
  match (GoAny.index data "policies").asSlice with
  | some v =>
    v.foldl
      (fun current p =>
        match p.asMap with
        | some m =>
          match (GoAny.index m "policy").asMap with
          | some policy => current ++ [str lib (GoAny.index policy "id")]
          | none => current
        | none => current) []
  | none => []

/-- The first request of `Update`: the PATCH of the role's own fields, for the plan
with its `ID` taken from the state. -/
def updateFieldsRequest (plan : RoleModel) : HttpRequest :=
  let payload : GoMap GoAny :=
    [ ("name", .str plan.Name.ValueString),
      ("icon", nullableStr plan.Icon),
      ("description", nullableStr plan.Description) ]
  ⟨"PATCH", "/roles/" ++ plan.ID.ValueString, some (.map payload)⟩

/-- The second request of `Update`: the GET of the role's current policies. -/
def fetchPoliciesRequest (plan : RoleModel) : HttpRequest :=
  ⟨"GET", "/roles/" ++ plan.ID.ValueString ++ "?fields=policies.policy.id", none⟩

/-- The third request of `Update`: the batched PATCH of the associations. -/
def patchPoliciesRequest (plan : RoleModel) (creates deletes : List GoAny) : HttpRequest :=
  let patchPayload : GoMap GoAny :=
    [ ("policies", .map
        [ ("create", .slice creates),
          ("update", .slice []),
          ("delete", .slice deletes) ]) ]
  ⟨"PATCH", "/roles/" ++ plan.ID.ValueString, some (.map patchPayload)⟩

/-- The method `RoleResource.Update`, from the plan and the prior state as decoded by
the framework. -/
def Update {σ : Type} (lib : Lib) (client : Transport σ) (remote : σ)
    (plan state : RoleModel) : OpResult σ RoleModel :=
  let plan := { plan with ID := state.ID }
  -- 1. update role fields
  let req1 := updateFieldsRequest plan
  match client remote req1 with
  | (.error err, remote) => ⟨[req1], [⟨"api error", err⟩], none, remote⟩
  | (.ok httpResp, remote) =>
  match parseResp lib httpResp true with
  | .error err => ⟨[req1], [⟨"api error", err⟩], none, remote⟩
  | .ok _ =>
  -- 2. handle policies
  if !plan.Policies.IsNull then
    match plan.Policies.ElementsAs with
    | none => ⟨[req1], [⟨"plan error", lib.fmtPlanErr plan.Policies⟩], none, remote⟩
    | some desired =>
    let req2 := fetchPoliciesRequest plan
    match client remote req2 with
    | (.error err, remote) => ⟨[req1, req2], [⟨"api error", err⟩], none, remote⟩
    | (.ok httpResp, remote) =>
    match parseResp lib httpResp false with
    | .error err => ⟨[req1, req2], [⟨"api error", err⟩], none, remote⟩
    | .ok data =>
    let current := current lib data
    let creates := creates plan.ID.ValueString desired current
    let deletes := deletes plan.ID.ValueString desired current
    if creates.length > 0 || deletes.length > 0 then
      let req3 := patchPoliciesRequest plan creates deletes
      match client remote req3 with
      | (.error err, remote) => ⟨[req1, req2, req3], [⟨"api error", err⟩], none, remote⟩
      | (.ok httpResp, remote) =>
      match parseResp lib httpResp true with
      | .error err => ⟨[req1, req2, req3], [⟨"api error", err⟩], none, remote⟩
      | .ok _ => ⟨[req1, req2, req3], [], some plan, remote⟩
    else
      ⟨[req1, req2], [], some plan, remote⟩
  else
    ⟨[req1], [], some plan, remote⟩

/-- The method `RoleResource.Delete`, from the prior state. -/
def Delete {σ : Type} (lib : Lib) (client : Transport σ) (remote : σ)
    (state : RoleModel) : Outcome σ RoleModel :=
  let req : HttpRequest := ⟨"DELETE", "/roles/" ++ state.ID.ValueString, none⟩
  match client remote req with
  | (.error err, remote) => ⟨[req], [⟨"api error", err⟩], none, false, remote⟩
  | (.ok httpResp, remote) =>
  match parseResp lib httpResp true with
  | .error err =>
    if !isNotFound err then ⟨[req], [⟨"api error", err⟩], none, false, remote⟩
    else ⟨[req], [], none, false, remote⟩
  | .ok _ => ⟨[req], [], none, false, remote⟩

/-- The `rm.Policies` set by `refreshState` from the fetched record: the loop over the
`policies` array with its `seen` map and its `elems`, or the null set. -/
def refreshPolicies (lib : Lib) (data : GoMap GoAny) : TfSet :=
  match (GoAny.index data "policies").asSlice with
  | some v =>
    let st := v.foldl
      (fun (st : GoMap Unit × List TfString) p =>
        let seen := st.1
        let elems := st.2
        match p.asMap with
        | some m =>
          match (GoAny.index m "policy").asMap with
          | some policy =>
            let id := str lib (GoAny.index policy "id")
            if id ≠ "" then
              if !seen.has id then (seen.set id (), elems ++ [TfString.value id])
              else (seen, elems)
            else (seen, elems)
          | none => (seen, elems)
        | none => (seen, elems))
      (([] : GoMap Unit), ([] : List TfString))
    .known st.2
  | none => .null

/-- What `refreshState` did: the model it was given, as updated, its boolean result, its
request, the diagnostics it added and the remote side afterwards. -/
structure RefreshResult (σ : Type) where
  rm : RoleModel
  ok : Bool
  requests : List HttpRequest
  diags : List Diagnostic
  remote : σ

/-- The method `RoleResource.refreshState`. -/
def refreshState {σ : Type} (lib : Lib) (client : Transport σ) (remote : σ)
    (id : String) (rm : RoleModel) : RefreshResult σ :=
  let req : HttpRequest := ⟨"GET", "/roles/" ++ id ++ "?fields=*,policies.policy.id", none⟩
  match client remote req with
  | (.error err, remote) => ⟨rm, false, [req], [⟨"api error", err⟩], remote⟩
  | (.ok httpResp, remote) =>
  match parseResp lib httpResp false with
  | .error err =>
    if isNotFound err then ⟨rm, false, [req], [], remote⟩
    else ⟨rm, false, [req], [⟨"api error", err⟩], remote⟩
  | .ok data =>
  let rm := { rm with
    Name := .value (str lib (GoAny.index data "name")),
    Icon := .value (str lib (GoAny.index data "icon")),
    Description := .value (str lib (GoAny.index data "description")),
    Policies := refreshPolicies lib data }
  ⟨rm, true, [req], [], remote⟩

/-- The method `RoleResource.Read`, from the prior state: the result of `refreshState` is
not looked at, and the state is written with `resp.State.Set` in every case. -/
def Read {σ : Type} (lib : Lib) (client : Transport σ) (remote : σ)
    (state : RoleModel) : Outcome σ RoleModel :=
  let r := refreshState lib client remote state.ID.ValueString state
  ⟨r.requests, r.diags, some r.rm, false, r.remote⟩

/-- The `payload` built by `RoleResource.Create`. -/
def createPayload (plan : RoleModel) : GoMap GoAny :=
  let payload : GoMap GoAny := [("name", .str plan.Name.ValueString)]
  let payload :=
    if !plan.Icon.IsNull then payload.set "icon" (.str plan.Icon.ValueString) else payload
  let payload :=
    if !plan.Description.IsNull then
      payload.set "description" (.str plan.Description.ValueString)
    else payload
  payload

/-- The ID capture of `Create`: `if v, ok := apiResp.Data["id"].(string); ok
{ plan.ID = types.StringValue(v) }`. -/
def createCaptureID (plan : RoleModel) (data : GoMap GoAny) : RoleModel :=
  match (GoAny.index data "id").asString with
  | some v => { plan with ID := .value v }
  | none => plan

/-- The `createObjs` of `Create`: one record `{"role": roleID, "policy": pid}` for each
declared policy, in order. -/
def createObjs (roleID : String) (policies : List String) : List GoAny :=
  policies.foldl
    (fun createObjs pid =>
      createObjs ++ [GoAny.map [("role", .str roleID), ("policy", .str pid)]]) []

/-- The follow-up request of `Create`: the PATCH that attaches the declared policies. -/
def createPoliciesRequest (plan : RoleModel) (createObjs : List GoAny) : HttpRequest :=
  let patchPayload : GoMap GoAny :=
    [ ("policies", .map
        [ ("create", .slice createObjs),
          ("update", .slice []),
          ("delete", .slice []) ]) ]
  ⟨"PATCH", "/roles/" ++ plan.ID.ValueString, some (.map patchPayload)⟩

/-- The end of `Create`: refresh from the API and write the state, after the requests
`sent`. -/
def createFinish {σ : Type} (lib : Lib) (client : Transport σ) (remote : σ)
    (sent : List HttpRequest) (plan : RoleModel) : Outcome σ RoleModel :=
  let r := refreshState lib client remote plan.ID.ValueString plan
  ⟨sent ++ r.requests, r.diags, some r.rm, false, r.remote⟩

/-- The method `RoleResource.Create`, from the plan. -/
def Create {σ : Type} (lib : Lib) (client : Transport σ) (remote : σ)
    (plan : RoleModel) : Outcome σ RoleModel :=
  -- create base role
  let payload := createPayload plan
  let req1 : HttpRequest := ⟨"POST", "/roles", some (.map payload)⟩
  match client remote req1 with
  | (.error err, remote) =>
    ⟨[req1], [⟨"api error", err ++ " payload: " ++ lib.fmtV (.map payload)⟩], none, false,
      remote⟩
  | (.ok httpResp, remote) =>
  match parseResp lib httpResp false with
  | .error err => ⟨[req1], [⟨"api error", err⟩], none, false, remote⟩
  | .ok data =>
  let plan := createCaptureID plan data
  -- if policies were provided, PATCH them in
  if !plan.Policies.IsNull then
    match plan.Policies.ElementsAs with
    | some policies =>
      if policies.length > 0 then
        let req2 := createPoliciesRequest plan (createObjs plan.ID.ValueString policies)
        match client remote req2 with
        | (.error err, remote) => ⟨[req1, req2], [⟨"api error", err⟩], none, false, remote⟩
        | (.ok httpResp, remote) =>
        match parseResp lib httpResp true with
        | .error err => ⟨[req1, req2], [⟨"api error", err⟩], none, false, remote⟩
        | .ok _ => createFinish lib client remote [req1, req2] plan
      else createFinish lib client remote [req1] plan
    | none => createFinish lib client remote [req1] plan
  else createFinish lib client remote [req1] plan

end RoleResource

/-- The policy ID of an association record, its `policy.id`. -/
def assocPolicyID (a : GoAny) : Option String :=
  match a.asMap with
  | some m =>
    match (GoAny.index m "policy").asMap with
    | some policy => (GoAny.index policy "id").asString
    | none => none
  | none => none

/-- The owner of an association record, its `role`. -/
def assocRole (a : GoAny) : Option String :=
  match a.asMap with
  | some m => (GoAny.index m "role").asString
  | none => none

/-- A batch of association records read as the list of its policy IDs. -/
def policyIDs (batch : List GoAny) : List String := batch.filterMap assocPolicyID

/-! ## Payload statements shared by `setting.go` and `file.go` -/

/-- The statement
`if v := x.ValueString(); v != "" { payload[k] = v } else { payload[k] = nil }`. -/
def setStringOrNil (payload : GoMap GoAny) (k : String) (x : TfString) : GoMap GoAny :=
  if x.ValueString ≠ "" then payload.set k (.str x.ValueString) else payload.set k .nil

/-- The statement
`if !x.IsNull() { payload[k] = x.ValueInt64() } else { payload[k] = nil }`. -/
def setInt64OrNil (payload : GoMap GoAny) (k : String) (x : TfInt64) : GoMap GoAny :=
  if !x.IsNull then payload.set k (.int64 x.ValueInt64) else payload.set k .nil

/-- The statement
`if !x.IsNull() { payload[k] = x.ValueBool() } else { payload[k] = nil }`. -/
def setBoolOrNil (payload : GoMap GoAny) (k : String) (x : TfBool) : GoMap GoAny :=
  if !x.IsNull then payload.set k (.bool x.ValueBool) else payload.set k .nil

/-- The statement `if v := x.ValueString(); v != "" { payload[k] = v }`. -/
def setStringIfNonEmpty (payload : GoMap GoAny) (k : String) (x : TfString) : GoMap GoAny :=
  if x.ValueString ≠ "" then payload.set k (.str x.ValueString) else payload

/-- The statement `if v := x.ValueInt64(); v != 0 { payload[k] = v }`. -/
def setInt64IfNonZero (payload : GoMap GoAny) (k : String) (x : TfInt64) : GoMap GoAny :=
  if x.ValueInt64 ≠ 0 then payload.set k (.int64 x.ValueInt64) else payload

/-! ## Schemas and models -/

/-- The type of a schema attribute: `StringAttribute`, `Int64Attribute`,
`BoolAttribute`. -/
inductive AttrType where
  | String : AttrType
  | Int64 : AttrType
  | Bool : AttrType
  deriving DecidableEq, Repr

/-- A schema attribute (`rschema.Attribute`) with the flags this code base sets. -/
structure Attribute where
  type : AttrType
  Required : Bool := false
  Optional : Bool := false
  Computed : Bool := false
  deriving DecidableEq, Repr

/-- A field of a model struct, of one of the framework types. -/
inductive TfValue where
  | string (v : TfString) : TfValue
  | int64 (v : TfInt64) : TfValue
  | bool (v : TfBool) : TfValue
  deriving DecidableEq, Repr

/-- The Go value a payload builder reads from a field: `ValueString()`,
`ValueInt64()` or `ValueBool()`. -/
def TfValue.goValue : TfValue → GoAny
  | .string v => .str v.ValueString
  | .int64 v => .int64 v.ValueInt64
  | .bool v => .bool v.ValueBool

/-! ## `setting.go` -/

/-- The struct `SettingModel`. -/
structure SettingModel where
  ID : TfString
  ProjectName : TfString
  ProjectURL : TfString
  ProjectColor : TfString
  ProjectLogo : TfString
  PublicForeground : TfString
  PublicBackground : TfString
  PublicNote : TfString
  AuthLoginAttempts : TfInt64
  AuthPasswordPolicy : TfString
  StorageAssetTransform : TfString
  StorageAssetPresets : TfString
  CustomCSS : TfString
  StorageDefaultFolder : TfString
  Basemaps : TfString
  MapboxKey : TfString
  ModuleBar : TfString
  ProjectDescriptor : TfString
  DefaultLanguage : TfString
  CustomAspectRatios : TfString
  PublicFavicon : TfString
  DefaultAppearance : TfString
  DefaultThemeLight : TfString
  ThemeLightOverrides : TfString
  DefaultThemeDark : TfString
  ThemeDarkOverrides : TfString
  ReportErrorURL : TfString
  ReportBugURL : TfString
  ReportFeatureURL : TfString
  PublicRegistration : TfBool
  PublicRegistrationVerifyEmail : TfBool
  PublicRegistrationRole : TfString
  PublicRegistrationEmailFilter : TfString
  VisualEditorURLs : TfString
  AcceptedTerms : TfBool
  ProjectID : TfString
  deriving DecidableEq, Repr

/-- The fields of a `SettingModel` under their `tfsdk` tags. -/
def SettingModel.tfsdk (m : SettingModel) : GoMap TfValue :=
  [ ("id", .string m.ID),
    ("project_name", .string m.ProjectName),
    ("project_url", .string m.ProjectURL),
    ("project_color", .string m.ProjectColor),
    ("project_logo", .string m.ProjectLogo),
    ("public_foreground", .string m.PublicForeground),
    ("public_background", .string m.PublicBackground),
    ("public_note", .string m.PublicNote),
    ("auth_login_attempts", .int64 m.AuthLoginAttempts),
    ("auth_password_policy", .string m.AuthPasswordPolicy),
    ("storage_asset_transform", .string m.StorageAssetTransform),
    ("storage_asset_presets", .string m.StorageAssetPresets),
    ("custom_css", .string m.CustomCSS),
    ("storage_default_folder", .string m.StorageDefaultFolder),
    ("basemaps", .string m.Basemaps),
    ("mapbox_key", .string m.MapboxKey),
    ("module_bar", .string m.ModuleBar),
    ("project_descriptor", .string m.ProjectDescriptor),
    ("default_language", .string m.DefaultLanguage),
    ("custom_aspect_ratios", .string m.CustomAspectRatios),
    ("public_favicon", .string m.PublicFavicon),
    ("default_appearance", .string m.DefaultAppearance),
    ("default_theme_light", .string m.DefaultThemeLight),
    ("theme_light_overrides", .string m.ThemeLightOverrides),
    ("default_theme_dark", .string m.DefaultThemeDark),
    ("theme_dark_overrides", .string m.ThemeDarkOverrides),
    ("report_error_url", .string m.ReportErrorURL),
    ("report_bug_url", .string m.ReportBugURL),
    ("report_feature_url", .string m.ReportFeatureURL),
    ("public_registration", .bool m.PublicRegistration),
    ("public_registration_verify_email", .bool m.PublicRegistrationVerifyEmail),
    ("public_registration_role", .string m.PublicRegistrationRole),
    ("public_registration_email_filter", .string m.PublicRegistrationEmailFilter),
    ("visual_editor_urls", .string m.VisualEditorURLs),
    ("accepted_terms", .bool m.AcceptedTerms),
    ("project_id", .string m.ProjectID) ]

namespace SettingResource

/-- The attributes of the schema set by `SettingResource.Schema`. -/
def Schema : GoMap Attribute :=
  [ ("id", { type := .String, Computed := true }),
    ("project_name", { type := .String, Optional := true }),
    ("project_url", { type := .String, Optional := true }),
    ("project_color", { type := .String, Optional := true }),
    ("project_logo", { type := .String, Optional := true }),
    ("public_foreground", { type := .String, Optional := true }),
    ("public_background", { type := .String, Optional := true }),
    ("public_note", { type := .String, Optional := true }),
    ("auth_login_attempts", { type := .Int64, Optional := true }),
    ("auth_password_policy", { type := .String, Optional := true }),
    ("storage_asset_transform", { type := .String, Optional := true }),
    ("storage_asset_presets", { type := .String, Optional := true }),
    ("custom_css", { type := .String, Optional := true }),
    ("storage_default_folder", { type := .String, Optional := true }),
    ("basemaps", { type := .String, Optional := true }),
    ("mapbox_key", { type := .String, Optional := true }),
    ("module_bar", { type := .String, Optional := true }),
    ("project_descriptor", { type := .String, Optional := true }),
    ("default_language", { type := .String, Optional := true }),
    ("custom_aspect_ratios", { type := .String, Optional := true }),
    ("public_favicon", { type := .String, Optional := true }),
    ("default_appearance", { type := .String, Optional := true }),
    ("default_theme_light", { type := .String, Optional := true }),
    ("theme_light_overrides", { type := .String, Optional := true }),
    ("default_theme_dark", { type := .String, Optional := true }),
    ("theme_dark_overrides", { type := .String, Optional := true }),
    ("report_error_url", { type := .String, Optional := true }),
    ("report_bug_url", { type := .String, Optional := true }),
    ("report_feature_url", { type := .String, Optional := true }),
    ("public_registration", { type := .Bool, Optional := true }),
    ("public_registration_verify_email", { type := .Bool, Optional := true }),
    ("public_registration_role", { type := .String, Optional := true }),
    ("public_registration_email_filter", { type := .String, Optional := true }),
    ("visual_editor_urls", { type := .String, Optional := true }),
    ("accepted_terms", { type := .Bool, Optional := true }),
    ("project_id", { type := .String, Computed := true }) ]

/-- The `payload` built by `SettingResource.Update`. -/
def updatePayload (plan : SettingModel) : GoMap GoAny :=
  let payload : GoMap GoAny := []
  let payload := setStringOrNil payload "project_name" plan.ProjectName
  let payload := setStringOrNil payload "project_url" plan.ProjectURL
  let payload := setStringOrNil payload "project_color" plan.ProjectColor
  let payload := setStringOrNil payload "project_logo" plan.ProjectLogo
  let payload := setStringOrNil payload "public_foreground" plan.PublicForeground
  let payload := setStringOrNil payload "public_background" plan.PublicBackground
  let payload := setStringOrNil payload "public_note" plan.PublicNote
  let payload := setInt64OrNil payload "auth_login_attempts" plan.AuthLoginAttempts
  let payload := setStringOrNil payload "auth_password_policy" plan.AuthPasswordPolicy
  let payload := setStringOrNil payload "storage_asset_transform" plan.StorageAssetTransform
  let payload := setStringOrNil payload "storage_asset_presets" plan.StorageAssetPresets
  let payload := setStringOrNil payload "custom_css" plan.CustomCSS
  let payload := setStringOrNil payload "storage_default_folder" plan.StorageDefaultFolder
  let payload := setStringOrNil payload "basemaps" plan.Basemaps
  let payload := setStringOrNil payload "mapbox_key" plan.MapboxKey
  let payload := setStringOrNil payload "module_bar" plan.ModuleBar
  let payload := setStringOrNil payload "project_descriptor" plan.ProjectDescriptor
  let payload := setStringOrNil payload "default_language" plan.DefaultLanguage
  let payload := setStringOrNil payload "custom_aspect_ratios" plan.CustomAspectRatios
  let payload := setStringOrNil payload "public_favicon" plan.PublicFavicon
  let payload := setStringOrNil payload "default_appearance" plan.DefaultAppearance
  let payload := setStringOrNil payload "default_theme_light" plan.DefaultThemeLight
  let payload := setStringOrNil payload "theme_light_overrides" plan.ThemeLightOverrides
  let payload := setStringOrNil payload "default_theme_dark" plan.DefaultThemeDark
  let payload := setStringOrNil payload "theme_dark_overrides" plan.ThemeDarkOverrides
  let payload := setStringOrNil payload "report_error_url" plan.ReportErrorURL
  let payload := setStringOrNil payload "report_bug_url" plan.ReportBugURL
  let payload := setStringOrNil payload "report_feature_url" plan.ReportFeatureURL
  let payload := setBoolOrNil payload "public_registration" plan.PublicRegistration
  let payload := setBoolOrNil payload "public_registration_verify_email" plan.PublicRegistrationVerifyEmail
  let payload := setStringOrNil payload "public_registration_role" plan.PublicRegistrationRole
  let payload := setStringOrNil payload "public_registration_email_filter" plan.PublicRegistrationEmailFilter
  let payload := setStringOrNil payload "visual_editor_urls" plan.VisualEditorURLs
  let payload := setBoolOrNil payload "accepted_terms" plan.AcceptedTerms
  payload

end SettingResource

/-- The statement `if !x.IsNull() { payload[k] = x.ValueInt64() }`. -/
def setInt64IfNotNull (payload : GoMap GoAny) (k : String) (x : TfInt64) : GoMap GoAny :=
  if !x.IsNull then payload.set k (.int64 x.ValueInt64) else payload

/-- The statement `if !x.IsNull() { payload[k] = x.ValueBool() }`. -/
def setBoolIfNotNull (payload : GoMap GoAny) (k : String) (x : TfBool) : GoMap GoAny :=
  if !x.IsNull then payload.set k (.bool x.ValueBool) else payload

/-- The statement `if v, ok := data[k]; ok && v != nil { if intVal, ok := v.(float64); ok
{ x = types.Int64Value(int64(intVal)) } }` of `readIntoState`: the new value of `x`. -/
def readInt64 (lib : Lib) (data : GoMap GoAny) (k : String) (x : TfInt64) : TfInt64 :=
  match data.get? k with
  | some (.float64 intVal) => .value (int64OfFloat64 lib intVal)
  | _ => x

/-- The statement `if v, ok := data[k]; ok && v != nil { if boolVal, ok := v.(bool); ok
{ x = types.BoolValue(boolVal) } }` of `readIntoState`: the new value of `x`. -/
def readBool (data : GoMap GoAny) (k : String) (x : TfBool) : TfBool :=
  match data.get? k with
  | some (.bool boolVal) => .value boolVal
  | _ => x

namespace SettingResource

/-- The `payload` built by `SettingResource.Create`. -/
def createPayload (plan : SettingModel) : GoMap GoAny :=
  let payload : GoMap GoAny := []
  let payload := setStringIfNonEmpty payload "project_name" plan.ProjectName
  let payload := setStringIfNonEmpty payload "project_url" plan.ProjectURL
  let payload := setStringIfNonEmpty payload "project_color" plan.ProjectColor
  let payload := setStringIfNonEmpty payload "project_logo" plan.ProjectLogo
  let payload := setStringIfNonEmpty payload "public_foreground" plan.PublicForeground
  let payload := setStringIfNonEmpty payload "public_background" plan.PublicBackground
  let payload := setStringIfNonEmpty payload "public_note" plan.PublicNote
  let payload := setInt64IfNotNull payload "auth_login_attempts" plan.AuthLoginAttempts
  let payload := setStringIfNonEmpty payload "auth_password_policy" plan.AuthPasswordPolicy
  let payload := setStringIfNonEmpty payload "storage_asset_transform" plan.StorageAssetTransform
  let payload := setStringIfNonEmpty payload "storage_asset_presets" plan.StorageAssetPresets
  let payload := setStringIfNonEmpty payload "custom_css" plan.CustomCSS
  let payload := setStringIfNonEmpty payload "storage_default_folder" plan.StorageDefaultFolder
  let payload := setStringIfNonEmpty payload "basemaps" plan.Basemaps
  let payload := setStringIfNonEmpty payload "mapbox_key" plan.MapboxKey
  let payload := setStringIfNonEmpty payload "module_bar" plan.ModuleBar
  let payload := setStringIfNonEmpty payload "project_descriptor" plan.ProjectDescriptor
  let payload := setStringIfNonEmpty payload "default_language" plan.DefaultLanguage
  let payload := setStringIfNonEmpty payload "custom_aspect_ratios" plan.CustomAspectRatios
  let payload := setStringIfNonEmpty payload "public_favicon" plan.PublicFavicon
  let payload := setStringIfNonEmpty payload "default_appearance" plan.DefaultAppearance
  let payload := setStringIfNonEmpty payload "default_theme_light" plan.DefaultThemeLight
  let payload := setStringIfNonEmpty payload "theme_light_overrides" plan.ThemeLightOverrides
  let payload := setStringIfNonEmpty payload "default_theme_dark" plan.DefaultThemeDark
  let payload := setStringIfNonEmpty payload "theme_dark_overrides" plan.ThemeDarkOverrides
  let payload := setStringIfNonEmpty payload "report_error_url" plan.ReportErrorURL
  let payload := setStringIfNonEmpty payload "report_bug_url" plan.ReportBugURL
  let payload := setStringIfNonEmpty payload "report_feature_url" plan.ReportFeatureURL
  let payload := setBoolIfNotNull payload "public_registration" plan.PublicRegistration
  let payload := setBoolIfNotNull payload "public_registration_verify_email" plan.PublicRegistrationVerifyEmail
  let payload := setStringIfNonEmpty payload "public_registration_role" plan.PublicRegistrationRole
  let payload := setStringIfNonEmpty payload "public_registration_email_filter" plan.PublicRegistrationEmailFilter
  let payload := setStringIfNonEmpty payload "visual_editor_urls" plan.VisualEditorURLs
  let payload := setBoolIfNotNull payload "accepted_terms" plan.AcceptedTerms
  payload

/-- The assignments of `readIntoState` ("Set all fields from the API response"): the
model after them, from the model before and the fetched record. -/
def readFields (lib : Lib) (plan : SettingModel) (data : GoMap GoAny) : SettingModel :=
  { plan with
    ID := .value (str lib (GoAny.index data "id")),
    ProjectName := strPtrToType lib (GoAny.index data "project_name"),
    ProjectURL := strPtrToType lib (GoAny.index data "project_url"),
    ProjectColor := strPtrToType lib (GoAny.index data "project_color"),
    ProjectLogo := strPtrToType lib (GoAny.index data "project_logo"),
    PublicForeground := strPtrToType lib (GoAny.index data "public_foreground"),
    PublicBackground := strPtrToType lib (GoAny.index data "public_background"),
    PublicNote := strPtrToType lib (GoAny.index data "public_note"),
    AuthLoginAttempts := readInt64 lib data "auth_login_attempts" plan.AuthLoginAttempts,
    AuthPasswordPolicy := strPtrToType lib (GoAny.index data "auth_password_policy"),
    StorageAssetTransform := strPtrToType lib (GoAny.index data "storage_asset_transform"),
    StorageAssetPresets := strPtrToType lib (GoAny.index data "storage_asset_presets"),
    CustomCSS := strPtrToType lib (GoAny.index data "custom_css"),
    StorageDefaultFolder := strPtrToType lib (GoAny.index data "storage_default_folder"),
    Basemaps := strPtrToType lib (GoAny.index data "basemaps"),
    MapboxKey := strPtrToType lib (GoAny.index data "mapbox_key"),
    ModuleBar := strPtrToType lib (GoAny.index data "module_bar"),
    ProjectDescriptor := strPtrToType lib (GoAny.index data "project_descriptor"),
    DefaultLanguage := strPtrToType lib (GoAny.index data "default_language"),
    CustomAspectRatios := strPtrToType lib (GoAny.index data "custom_aspect_ratios"),
    PublicFavicon := strPtrToType lib (GoAny.index data "public_favicon"),
    DefaultAppearance := strPtrToType lib (GoAny.index data "default_appearance"),
    DefaultThemeLight := strPtrToType lib (GoAny.index data "default_theme_light"),
    ThemeLightOverrides := strPtrToType lib (GoAny.index data "theme_light_overrides"),
    DefaultThemeDark := strPtrToType lib (GoAny.index data "default_theme_dark"),
    ThemeDarkOverrides := strPtrToType lib (GoAny.index data "theme_dark_overrides"),
    ReportErrorURL := strPtrToType lib (GoAny.index data "report_error_url"),
    ReportBugURL := strPtrToType lib (GoAny.index data "report_bug_url"),
    ReportFeatureURL := strPtrToType lib (GoAny.index data "report_feature_url"),
    PublicRegistration := readBool data "public_registration" plan.PublicRegistration,
    PublicRegistrationVerifyEmail := readBool data "public_registration_verify_email" plan.PublicRegistrationVerifyEmail,
    PublicRegistrationRole := strPtrToType lib (GoAny.index data "public_registration_role"),
    PublicRegistrationEmailFilter := strPtrToType lib (GoAny.index data "public_registration_email_filter"),
    VisualEditorURLs := strPtrToType lib (GoAny.index data "visual_editor_urls"),
    AcceptedTerms := readBool data "accepted_terms" plan.AcceptedTerms,
    ProjectID := strPtrToType lib (GoAny.index data "project_id") }

/-- The method `SettingResource.readIntoState`, for a response that is a
`CreateResponse`, a `ReadResponse` or an `UpdateResponse`. -/
def readIntoState {σ : Type} (lib : Lib) (client : Transport σ) (remote : σ)
    (plan : SettingModel) : Outcome σ SettingModel :=
  let req : HttpRequest := ⟨"GET", "/settings", none⟩
  match client remote req with
  | (.error err, remote) => ⟨[req], [⟨"api error", err⟩], none, false, remote⟩
  | (.ok httpResp, remote) =>
  match parseResp lib httpResp false with
  | .error err => ⟨[req], [⟨"api error", err⟩], none, false, remote⟩
  | .ok data => ⟨[req], [], some (readFields lib plan data), false, remote⟩

/-- The method `SettingResource.Create`, from the plan. -/
def Create {σ : Type} (lib : Lib) (client : Transport σ) (remote : σ)
    (plan : SettingModel) : Outcome σ SettingModel :=
  let req : HttpRequest := ⟨"PATCH", "/settings", some (.map (createPayload plan))⟩
  match client remote req with
  | (.error err, remote) => ⟨[req], [⟨"api error", err⟩], none, false, remote⟩
  | (.ok httpResp, remote) =>
  match parseResp lib httpResp true with
  | .error err => ⟨[req], [⟨"api error", err⟩], none, false, remote⟩
  | .ok _ =>
  -- read back to capture id and normalized values
  let r := readIntoState lib client remote plan
  ⟨req :: r.requests, r.diags, r.stateSet, r.removed, r.remote⟩

/-- The method `SettingResource.Read`, from the prior state. -/
def Read {σ : Type} (lib : Lib) (client : Transport σ) (remote : σ)
    (state : SettingModel) : Outcome σ SettingModel :=
  let plan := state
  readIntoState lib client remote plan

/-- The method `SettingResource.Delete`: no request, the resource is removed from the
state. -/
def Delete {σ : Type} (remote : σ) : Outcome σ SettingModel :=
  ⟨[], [], none, true, remote⟩

end SettingResource

/-! ## `file.go` -/

/-- The struct `FileModel`; its field `Type` is named `Type_` here, since `Type` is
reserved. -/
structure FileModel where
  ID : TfString
  Title : TfString
  Description : TfString
  Type_ : TfString
  FilenameDisk : TfString
  FilenameDownload : TfString
  Storage : TfString
  Folder : TfString
  UploadedBy : TfString
  UploadedOn : TfString
  ModifiedBy : TfString
  ModifiedOn : TfString
  Metadata : TfString
  Checksum : TfString
  Width : TfInt64
  Height : TfInt64
  Filesize : TfInt64
  Duration : TfInt64
  deriving DecidableEq, Repr

/-- The fields of a `FileModel` under their `tfsdk` tags. -/
def FileModel.tfsdk (m : FileModel) : GoMap TfValue :=
  [ ("id", .string m.ID),
    ("title", .string m.Title),
    ("description", .string m.Description),
    ("type", .string m.Type_),
    ("filename_disk", .string m.FilenameDisk),
    ("filename_download", .string m.FilenameDownload),
    ("storage", .string m.Storage),
    ("folder", .string m.Folder),
    ("uploaded_by", .string m.UploadedBy),
    ("uploaded_on", .string m.UploadedOn),
    ("modified_by", .string m.ModifiedBy),
    ("modified_on", .string m.ModifiedOn),
    ("metadata", .string m.Metadata),
    ("checksum", .string m.Checksum),
    ("width", .int64 m.Width),
    ("height", .int64 m.Height),
    ("filesize", .int64 m.Filesize),
    ("duration", .int64 m.Duration) ]

namespace FileResource

/-- The attributes of the schema set by `FileResource.Schema`. -/
def Schema : GoMap Attribute :=
  [ ("id", { type := .String, Computed := true }),
    ("title", { type := .String, Optional := true }),
    ("description", { type := .String, Optional := true }),
    ("type", { type := .String, Optional := true }),
    ("filename_disk", { type := .String, Optional := true }),
    ("filename_download", { type := .String, Optional := true }),
    ("storage", { type := .String, Optional := true }),
    ("folder", { type := .String, Optional := true }),
    ("uploaded_by", { type := .String, Computed := true }),
    ("uploaded_on", { type := .String, Computed := true }),
    ("modified_by", { type := .String, Computed := true }),
    ("modified_on", { type := .String, Computed := true }),
    ("metadata", { type := .String, Optional := true }),
    ("checksum", { type := .String, Optional := true }),
    ("width", { type := .Int64, Optional := true }),
    ("height", { type := .Int64, Optional := true }),
    ("filesize", { type := .Int64, Optional := true }),
    ("duration", { type := .Int64, Optional := true }) ]

/-- The `payload` built by `FileResource.Create`. -/
def createPayload (plan : FileModel) : GoMap GoAny :=
  let payload : GoMap GoAny := []
  let payload := setStringIfNonEmpty payload "title" plan.Title
  let payload := setStringIfNonEmpty payload "description" plan.Description
  let payload := setStringIfNonEmpty payload "filename_download" plan.FilenameDownload
  let payload := setStringIfNonEmpty payload "storage" plan.Storage
  let payload := setStringIfNonEmpty payload "folder" plan.Folder
  let payload := setStringIfNonEmpty payload "metadata" plan.Metadata
  let payload := setStringIfNonEmpty payload "checksum" plan.Checksum
  let payload := setInt64IfNonZero payload "width" plan.Width
  let payload := setInt64IfNonZero payload "height" plan.Height
  let payload := setInt64IfNonZero payload "filesize" plan.Filesize
  let payload := setInt64IfNonZero payload "duration" plan.Duration
  let payload := setStringIfNonEmpty payload "type" plan.Type_
  let payload := setStringIfNonEmpty payload "filename_disk" plan.FilenameDisk
  payload

/-- The `payload` built by `FileResource.Update`. -/
def updatePayload (plan : FileModel) : GoMap GoAny :=
  let payload : GoMap GoAny := []
  let payload := setStringOrNil payload "title" plan.Title
  let payload := setStringOrNil payload "description" plan.Description
  let payload := setStringOrNil payload "filename_download" plan.FilenameDownload
  let payload := setStringOrNil payload "storage" plan.Storage
  let payload := setStringOrNil payload "folder" plan.Folder
  let payload := setStringOrNil payload "metadata" plan.Metadata
  payload

/-- The method `FileResource.Delete`, from the prior state: the response is dropped
without a look at its status. -/
def Delete {σ : Type} (client : Transport σ) (remote : σ) (state : FileModel) :
    Outcome σ FileModel :=
  let req : HttpRequest := ⟨"DELETE", "/files/" ++ state.ID.ValueString, none⟩
  match client remote req with
  | (.error err, remote) => ⟨[req], [⟨"api error", err⟩], none, false, remote⟩
  | (.ok _, remote) => ⟨[req], [], none, true, remote⟩

end FileResource

/-! ## `policy.go` -/

/-- The struct `PolicyModel`. -/
structure PolicyModel where
  ID : TfString
  Name : TfString
  Icon : TfString
  Description : TfString
  IPAccess : List TfString
  EnforceTFA : TfBool
  AdminAccess : TfBool
  AppAccess : TfBool
  deriving DecidableEq, Repr

/-- The function `boolPtrToType`. -/
def boolPtrToType (v : GoAny) : TfBool :=
  match v.asBool with
  | some b => .value b
  | none => .null

/-- The function `expandStringList`. -/
def expandStringList (list : List TfString) : List String :=
  list.foldl (fun result v => if !v.IsNull then result ++ [v.ValueString] else result) []

namespace PolicyResource

/-- The `payload` built by `PolicyResource.Create`; a `[]string` is the slice of its
strings. -/
def createPayload (plan : PolicyModel) : GoMap GoAny :=
  [ ("name", .str plan.Name.ValueString),
    ("icon", .str plan.Icon.ValueString),
    ("description", .str plan.Description.ValueString),
    ("ip_access", .slice ((expandStringList plan.IPAccess).map GoAny.str)),
    ("enforce_tfa", .bool plan.EnforceTFA.ValueBool),
    ("admin_access", .bool plan.AdminAccess.ValueBool),
    ("app_access", .bool plan.AppAccess.ValueBool) ]

/-- The `payload` built by `PolicyResource.Update`. -/
def updatePayload (plan : PolicyModel) : GoMap GoAny :=
  [ ("name", .str plan.Name.ValueString),
    ("icon", .str plan.Icon.ValueString),
    ("description", .str plan.Description.ValueString),
    ("ip_access", .slice ((expandStringList plan.IPAccess).map GoAny.str)),
    ("enforce_tfa", .bool plan.EnforceTFA.ValueBool),
    ("admin_access", .bool plan.AdminAccess.ValueBool),
    ("app_access", .bool plan.AppAccess.ValueBool) ]

/-- The method `PolicyResource.Delete`, from the prior state: the response is dropped
without a look at its status. -/
def Delete {σ : Type} (client : Transport σ) (remote : σ) (state : PolicyModel) :
    Outcome σ PolicyModel :=
  let req : HttpRequest := ⟨"DELETE", "/policies/" ++ state.ID.ValueString, none⟩
  match client remote req with
  | (.error err, remote) => ⟨[req], [⟨"api error", err⟩], none, false, remote⟩
  | (.ok _, remote) => ⟨[req], [], none, true, remote⟩

end PolicyResource

/-! ## `permission.go` -/

/-- The struct `PermissionModel`. -/
structure PermissionModel where
  ID : TfInt64
  Collection : TfString
  Action : TfString
  Permissions : TfString
  Validation : TfString
  Fields : TfList
  Policy : TfString
  Presets : TfString
  System : TfBool
  deriving DecidableEq, Repr

/-- The statement `if s := x.ValueString(); s != "" { payload[k] = jsonRaw(s) }`. -/
def setRawIfNonEmpty (payload : GoMap GoAny) (k : String) (x : TfString) : GoMap GoAny :=
  if x.ValueString ≠ "" then payload.set k (jsonRaw x.ValueString) else payload

namespace PermissionResource

/-- The `payload` built by `PermissionResource.Create`.  The result of `ElementsAs` is
not checked there; a failed conversion leaves the nil slice. -/
def createPayload (plan : PermissionModel) : GoMap GoAny :=
  let payload : GoMap GoAny :=
    [ ("collection", .str plan.Collection.ValueString),
      ("action", .str plan.Action.ValueString),
      ("policy", .str plan.Policy.ValueString) ]
  let payload := setRawIfNonEmpty payload "permissions" plan.Permissions
  let payload := setRawIfNonEmpty payload "validation" plan.Validation
  let payload := setRawIfNonEmpty payload "presets" plan.Presets
  let payload :=
    if !plan.Fields.IsNull then
      let fields := plan.Fields.ElementsAs.getD []
      payload.set "fields" (.slice (fields.map GoAny.str))
    else payload
  payload

/-- The ID decoding of `PermissionResource.Create` ("handle ID robustly"): the new
`plan.ID` from the old one and the `id` of the response record. -/
def createDecodeID (lib : Lib) (ID : TfInt64) (id : GoAny) : TfInt64 :=
  match id with
  | .float64 v => .value (int64OfFloat64 lib v)
  | .int v => .value v
  | .int64 v => .value v
  | .str v =>
    match lib.parseInt v with
    | some idInt => .value idInt
    | none => ID
  | _ => ID

/-- The method `PermissionResource.Create`, from the plan. -/
def Create {σ : Type} (lib : Lib) (client : Transport σ) (remote : σ)
    (plan : PermissionModel) : Outcome σ PermissionModel :=
  let req : HttpRequest := ⟨"POST", "/permissions", some (.map (createPayload plan))⟩
  match client remote req with
  | (.error err, remote) => ⟨[req], [⟨"api error", err⟩], none, false, remote⟩
  | (.ok httpResp, remote) =>
  match parseResp lib httpResp false with
  | .error err => ⟨[req], [⟨"api error", err⟩], none, false, remote⟩
  | .ok data =>
  -- handle ID robustly
  let plan := { plan with ID := createDecodeID lib plan.ID (GoAny.index data "id") }
  let plan :=
    match (GoAny.index data "policy").asString with
    | some v => { plan with Policy := .value v }
    | none => { plan with Policy := .value "" }
  let plan :=
    match (GoAny.index data "system").asBool with
    | some v => { plan with System := .value v }
    | none => { plan with System := .value false }
  ⟨[req], [], some plan, false, remote⟩

/-- The ID decoding of `PermissionResource.Read`: the new `state.ID` from the old one and
the `id` of the fetched record. -/
def readDecodeID (lib : Lib) (ID : TfInt64) (id : GoAny) : TfInt64 :=
  match id with
  | .float64 v => .value (int64OfFloat64 lib v)
  | _ => ID

/-- The statement `if v, ok := data[k]; ok && v != nil { b, _ := json.Marshal(v);
x = types.StringValue(string(b)) }` of `Read`: the new value of `x`. -/
def readBlob (lib : Lib) (data : GoMap GoAny) (k : String) (x : TfString) : TfString :=
  match data.get? k with
  | some v => if !v.isNil then .value (lib.jsonMarshal v) else x
  | none => x

/-- The method `PermissionResource.Read`, from the prior state. -/
def Read {σ : Type} (lib : Lib) (client : Transport σ) (remote : σ)
    (state : PermissionModel) : Outcome σ PermissionModel :=
  let req : HttpRequest :=
    ⟨"GET", "/permissions/" ++ toString state.ID.ValueInt64, none⟩
  match client remote req with
  | (.error err, remote) => ⟨[req], [⟨"api error", err⟩], none, false, remote⟩
  | (.ok httpResp, remote) =>
  match parseResp lib httpResp false with
  | .error err =>
    if isNotFound err then ⟨[req], [], none, true, remote⟩
    else ⟨[req], [⟨"api error", err⟩], none, false, remote⟩
  | .ok data =>
  let state := { state with
    Collection := .value (str lib (GoAny.index data "collection")),
    Action := .value (str lib (GoAny.index data "action")) }
  -- fields
  let state :=
    match (GoAny.index data "fields").asSlice with
    | some v => { state with Fields := .known (v.map (fun f => .value (str lib f))) }
    | none => state
  -- id
  let state := { state with ID := readDecodeID lib state.ID (GoAny.index data "id") }
  -- json blobs
  let state := { state with Permissions := readBlob lib data "permissions" state.Permissions }
  let state := { state with Validation := readBlob lib data "validation" state.Validation }
  let state := { state with Presets := readBlob lib data "presets" state.Presets }
  let state :=
    match (GoAny.index data "policy").asString with
    | some v => { state with Policy := .value v }
    | none => { state with Policy := .value "" }
  let state :=
    match (GoAny.index data "system").asBool with
    | some v => { state with System := .value v }
    | none => { state with System := .value false }
  ⟨[req], [], some state, false, remote⟩

/-- The method `PermissionResource.Delete`, from the prior state. -/
def Delete {σ : Type} (lib : Lib) (client : Transport σ) (remote : σ)
    (state : PermissionModel) : Outcome σ PermissionModel :=
  let req : HttpRequest :=
    ⟨"DELETE", "/permissions/" ++ toString state.ID.ValueInt64, none⟩
  match client remote req with
  | (.error err, remote) => ⟨[req], [⟨"api error", err⟩], none, false, remote⟩
  | (.ok httpResp, remote) =>
  match parseResp lib httpResp true with
  | .error err =>
    if !isNotFound err then ⟨[req], [⟨"api error", err⟩], none, false, remote⟩
    else ⟨[req], [], none, false, remote⟩
  | .ok _ => ⟨[req], [], none, false, remote⟩

end PermissionResource

/-! ## Concrete inputs -/

/-- White space as `unicode.IsSpace` has it. -/
def exampleIsSpace (c : Char) : Bool :=
  c.val ∈ [0x09, 0x0A, 0x0B, 0x0C, 0x0D, 0x20, 0x85, 0xA0, 0x1680, 0x2028, 0x2029, 0x202F,
      0x205F, 0x3000]
    || (0x2000 ≤ c.val && c.val ≤ 0x200A)

/-- A stand-in for `strings.TrimSpace`: the string without its leading and trailing
white space. -/
def exampleTrimSpace (s : String) : String :=
  String.mk ((s.toList.dropWhile exampleIsSpace).reverse.dropWhile exampleIsSpace).reverse

/-- The number written by a list of decimal digits after the digits read so far, if
they all are digits. -/
def exampleDigits : List Char → Nat → Option Nat
  | [], acc => some acc
  | c :: cs, acc =>
    if '0' ≤ c ∧ c ≤ '9' then exampleDigits cs (10 * acc + (c.toNat - '0'.toNat)) else none

/-- A stand-in for `strconv.ParseInt(s, 10, 64)`: an optional sign and at least one
decimal digit, within the 64-bit range. -/
def exampleParseInt (s : String) : Option Int :=
  match s.toList with
  | [] => none
  | '-' :: ds =>
    if ds = [] then none
    else (exampleDigits ds 0).bind fun m => if m ≤ 2 ^ 63 then some (-(m : Int)) else none
  | '+' :: ds =>
    if ds = [] then none
    else (exampleDigits ds 0).bind fun m => if m < 2 ^ 63 then some (m : Int) else none
  | ds => (exampleDigits ds 0).bind fun m => if m < 2 ^ 63 then some (m : Int) else none

/-- A stand-in for `json.Valid` that accepts the JSON texts `null`, `true`, `false`,
`42`, `[]` and `[1]` and no other text; it agrees with `json.Valid` on the texts it is
applied to below. -/
def exampleJsonValid (s : String) : Bool :=
  decide (s ∈ ["null", "true", "false", "42", "[]", "[1]"])


/-- A library whose decoder reads every response body as a record with the single
attached policy `p2`. -/
def exampleLib : Lib where
  fmtV := fun _ => ""
  decodeErr := fun _ => .nil
  decodeData := fun _ =>
    .ok [("policies", .slice [.map [("policy", .map [("id", .str "p2")])]])]
  fmtPlanErr := fun _ => ""
  trimSpace := exampleTrimSpace
  jsonValid := exampleJsonValid
  parseInt := exampleParseInt
  int64Overflow := fun _ => -(2 : Int) ^ 63
  jsonMarshal := fun _ => ""
  jsonMarshalErr := fun _ => false

/-- A remote side without state that answers every request with status 200. -/
def exampleClient : Transport Unit := fun _ _ => (.ok ⟨200, ""⟩, ())

/-- A role plan that declares the single policy `p1`. -/
def examplePlan : RoleModel :=
  ⟨.unknown, .value "editor", .null, .null, .known [.value "p1"]⟩

/-- A role plan that declares the single policy `p2`. -/
def examplePlanSame : RoleModel :=
  ⟨.unknown, .value "editor", .null, .null, .known [.value "p2"]⟩

/-- The record every body decodes to under `exampleLib`. -/
def exampleData : GoMap GoAny :=
  [("policies", .slice [.map [("policy", .map [("id", .str "p2")])]])]

/-- The prior state of the role `r1`, without policies. -/
def exampleState : RoleModel :=
  ⟨.value "r1", .value "editor", .null, .null, .null⟩

/-- A file plan that only declares `type`. -/
def exampleFilePlan : FileModel :=
  { ID := .unknown, Title := .null, Description := .null, Type_ := .value "image/png",
    FilenameDisk := .null, FilenameDownload := .null, Storage := .null, Folder := .null,
    UploadedBy := .unknown, UploadedOn := .unknown, ModifiedBy := .unknown,
    ModifiedOn := .unknown, Metadata := .null, Checksum := .null, Width := .null,
    Height := .null, Filesize := .null, Duration := .null }

/-- A policy plan that only declares `name`. -/
def examplePolicyPlan : PolicyModel :=
  { ID := .unknown, Name := .value "Editors", Icon := .null, Description := .null,
    IPAccess := [], EnforceTFA := .null, AdminAccess := .null, AppAccess := .null }

/-- The library `exampleLib` with a decoder that reads every response body as the
record `data`. -/
def exampleLibWith (data : GoMap GoAny) : Lib :=
  { exampleLib with decodeData := fun _ => .ok data }

/-- A permission plan for reading the collection `articles`. -/
def examplePermissionPlan : PermissionModel :=
  { ID := .unknown, Collection := .value "articles", Action := .value "read",
    Permissions := .null, Validation := .null, Fields := .null, Policy := .value "p1",
    Presets := .null, System := .unknown }

/-- The prior state of the permission `7`. -/
def examplePermissionState : PermissionModel :=
  { ID := .value 7, Collection := .value "articles", Action := .value "read",
    Permissions := .null, Validation := .null, Fields := .null, Policy := .value "p1",
    Presets := .null, System := .value false }

/-- A remote side without state that answers every request with status 404 and an
empty body. -/
def exampleNotFoundClient : Transport Unit := fun _ _ => (.ok ⟨404, ""⟩, ())

/-- The error body `{"errors":[{"message":"upstream 404"}]}`. -/
def exampleErrBody : String :=
  "\x7b\"errors\":[\x7b\"message\":\"upstream 404\"\x7d]\x7d"

/-- A library that decodes every error body as the record of `exampleErrBody` and prints
it the way `%v` does. -/
def exampleErrLib : Lib :=
  { exampleLib with
    decodeErr := fun _ =>
      .map [("errors", .slice [.map [("message", .str "upstream 404")]])]
    fmtV := fun _ => "map[errors:[map[message:upstream 404]]]" }

/-- A remote side without state that answers every request with status 500 and the body
`exampleErrBody`. -/
def exampleErrClient : Transport Unit := fun _ _ => (.ok ⟨500, exampleErrBody⟩, ())

/-- The prior state of the policy `pol1`. -/
def examplePolicyState : PolicyModel :=
  { examplePolicyPlan with ID := .value "pol1" }

/-- The prior state of the file `f1`. -/
def exampleFileState : FileModel :=
  { exampleFilePlan with ID := .value "f1" }

/-- A role plan that declares no policies. -/
def exampleRolePlan : RoleModel :=
  ⟨.unknown, .value "editor", .null, .null, .null⟩

/-- A prior state of the settings with `auth_login_attempts = 25` and
`public_registration = true`. -/
def exampleSettingState : SettingModel :=
  { ID := .value "1",
    ProjectName := .value "Directus",
    ProjectURL := .null,
    ProjectColor := .null,
    ProjectLogo := .null,
    PublicForeground := .null,
    PublicBackground := .null,
    PublicNote := .null,
    AuthLoginAttempts := .value 25,
    AuthPasswordPolicy := .null,
    StorageAssetTransform := .null,
    StorageAssetPresets := .null,
    CustomCSS := .null,
    StorageDefaultFolder := .null,
    Basemaps := .null,
    MapboxKey := .null,
    ModuleBar := .null,
    ProjectDescriptor := .null,
    DefaultLanguage := .null,
    CustomAspectRatios := .null,
    PublicFavicon := .null,
    DefaultAppearance := .null,
    DefaultThemeLight := .null,
    ThemeLightOverrides := .null,
    DefaultThemeDark := .null,
    ThemeDarkOverrides := .null,
    ReportErrorURL := .null,
    ReportBugURL := .null,
    ReportFeatureURL := .null,
    PublicRegistration := .value true,
    PublicRegistrationVerifyEmail := .null,
    PublicRegistrationRole := .null,
    PublicRegistrationEmailFilter := .null,
    VisualEditorURLs := .null,
    AcceptedTerms := .null,
    ProjectID := .null }

/-- The library `exampleLib` with a stand-in for `json.Marshal` that encodes the booleans
as `true` and `false` and every other value as `null`. -/
def exampleMarshalLib : Lib :=
  { exampleLib with
    jsonMarshal := fun v =>
      match v with
      | .bool true => "true"
      | .bool false => "false"
      | _ => "null" }

/-! ## Lemmas on Go maps -/

namespace GoMap

variable {α : Type}

theorem get?_nil (k' : String) : get? ([] : GoMap α) k' = none := rfl

theorem get?_cons (k0 : String) (v0 : α) (m : GoMap α) (k' : String) :
    get? ((k0, v0) :: m) k' = if k' = k0 then some v0 else get? m k' := by
  unfold get?
  by_cases h : k' = k0
  · subst h
    simp [List.lookup]
  · have hb : (k' == k0) = false := by simpa using h
    simp [List.lookup, hb, h]

theorem get?_set (m : GoMap α) (k k' : String) (v : α) :
    (m.set k v).get? k' = if k' = k then some v else m.get? k' := by
  induction m with
  | nil => simp [set, get?_cons, get?_nil]
  | cons e m ih =>
    obtain ⟨k0, v0⟩ := e
    by_cases h0 : k0 = k
    · subst h0
      by_cases h : k' = k0 <;> simp [set, get?_cons, h]
    · by_cases h : k' = k
      · subst h
        have h1 : ¬ k' = k0 := fun e => h0 e.symm
        simp [set, get?_cons, h0, h1, ih]
      · by_cases h2 : k' = k0 <;> simp [set, get?_cons, h0, h, h2, ih]

theorem has_set (m : GoMap α) (k k' : String) (v : α) :
    (m.set k v).has k' = true ↔ k' = k ∨ m.has k' = true := by
  unfold has
  rw [get?_set]
  by_cases h : k' = k <;> simp [h]

theorem keys_set (m : GoMap α) (k : String) (v : α) :
    (m.set k v).keys = if k ∈ m.keys then m.keys else m.keys ++ [k] := by
  induction m with
  | nil => simp [set, keys]
  | cons e m ih =>
    obtain ⟨k0, v0⟩ := e
    unfold keys at ih
    by_cases h0 : k0 = k
    · subst h0
      simp [set, keys]
    · have h1 : ¬ k = k0 := fun e => h0 e.symm
      by_cases hm : k ∈ List.map Prod.fst m
      · simp [set, keys, h0, h1, hm, ih]
      · simp [set, keys, h0, h1, hm, ih]

end GoMap

/-! ## Lemmas on the payload statements -/

theorem keys_setStringOrNil (p : GoMap GoAny) (k : String) (x : TfString) :
    GoMap.keys (setStringOrNil p k x) = GoMap.addKey (GoMap.keys p) k := by
  unfold setStringOrNil GoMap.addKey
  split <;> exact GoMap.keys_set _ _ _

theorem keys_setInt64OrNil (p : GoMap GoAny) (k : String) (x : TfInt64) :
    GoMap.keys (setInt64OrNil p k x) = GoMap.addKey (GoMap.keys p) k := by
  unfold setInt64OrNil GoMap.addKey
  split <;> exact GoMap.keys_set _ _ _

theorem keys_setBoolOrNil (p : GoMap GoAny) (k : String) (x : TfBool) :
    GoMap.keys (setBoolOrNil p k x) = GoMap.addKey (GoMap.keys p) k := by
  unfold setBoolOrNil GoMap.addKey
  split <;> exact GoMap.keys_set _ _ _

theorem values_set (tf : GoMap TfValue) (p : GoMap GoAny) (k : String) (w : GoAny)
    (a : TfValue)
    (hp : ∀ k' v, p.get? k' = some v →
      ∃ a, tf.get? k' = some a ∧ (v = a.goValue ∨ v = GoAny.nil))
    (hk : tf.get? k = some a) (hw : w = a.goValue ∨ w = GoAny.nil) :
    ∀ k' v, (p.set k w).get? k' = some v →
      ∃ a, tf.get? k' = some a ∧ (v = a.goValue ∨ v = GoAny.nil) := by
  intro k' v h
  rw [GoMap.get?_set] at h
  by_cases hkk : k' = k
  · subst hkk
    rw [if_pos rfl] at h
    injection h with h
    subst h
    exact ⟨a, hk, hw⟩
  · rw [if_neg hkk] at h
    exact hp k' v h

theorem values_setStringOrNil (tf : GoMap TfValue) (p : GoMap GoAny) (k : String)
    (x : TfString)
    (hp : ∀ k' v, p.get? k' = some v →
      ∃ a, tf.get? k' = some a ∧ (v = a.goValue ∨ v = GoAny.nil))
    (hk : tf.get? k = some (.string x)) :
    ∀ k' v, (setStringOrNil p k x).get? k' = some v →
      ∃ a, tf.get? k' = some a ∧ (v = a.goValue ∨ v = GoAny.nil) := by
  unfold setStringOrNil
  split
  · exact values_set tf p k _ _ hp hk (Or.inl rfl)
  · exact values_set tf p k _ _ hp hk (Or.inr rfl)

theorem values_setInt64OrNil (tf : GoMap TfValue) (p : GoMap GoAny) (k : String)
    (x : TfInt64)
    (hp : ∀ k' v, p.get? k' = some v →
      ∃ a, tf.get? k' = some a ∧ (v = a.goValue ∨ v = GoAny.nil))
    (hk : tf.get? k = some (.int64 x)) :
    ∀ k' v, (setInt64OrNil p k x).get? k' = some v →
      ∃ a, tf.get? k' = some a ∧ (v = a.goValue ∨ v = GoAny.nil) := by
  unfold setInt64OrNil
  split
  · exact values_set tf p k _ _ hp hk (Or.inl rfl)
  · exact values_set tf p k _ _ hp hk (Or.inr rfl)

theorem values_setBoolOrNil (tf : GoMap TfValue) (p : GoMap GoAny) (k : String)
    (x : TfBool)
    (hp : ∀ k' v, p.get? k' = some v →
      ∃ a, tf.get? k' = some a ∧ (v = a.goValue ∨ v = GoAny.nil))
    (hk : tf.get? k = some (.bool x)) :
    ∀ k' v, (setBoolOrNil p k x).get? k' = some v →
      ∃ a, tf.get? k' = some a ∧ (v = a.goValue ∨ v = GoAny.nil) := by
  unfold setBoolOrNil
  split
  · exact values_set tf p k _ _ hp hk (Or.inl rfl)
  · exact values_set tf p k _ _ hp hk (Or.inr rfl)

theorem get?_setStringIfNonEmpty (p : GoMap GoAny) (k k' : String) (x : TfString) :
    (setStringIfNonEmpty p k x).get? k'
      = if k' = k ∧ x.ValueString ≠ "" then some (GoAny.str x.ValueString) else p.get? k' := by
  unfold setStringIfNonEmpty
  by_cases hx : x.ValueString ≠ ""
  · rw [if_pos hx, GoMap.get?_set]
    by_cases hk : k' = k <;> simp [hk, hx]
  · rw [if_neg hx]
    simp [hx]

theorem get?_setInt64IfNonZero (p : GoMap GoAny) (k k' : String) (x : TfInt64) :
    (setInt64IfNonZero p k x).get? k'
      = if k' = k ∧ x.ValueInt64 ≠ 0 then some (GoAny.int64 x.ValueInt64) else p.get? k' := by
  unfold setInt64IfNonZero
  by_cases hx : x.ValueInt64 ≠ 0
  · rw [if_pos hx, GoMap.get?_set]
    by_cases hk : k' = k <;> simp [hk, hx]
  · rw [if_neg hx]
    simp [hx]

theorem mem_keys_iff_get? {α : Type} (m : GoMap α) (k : String) :
    k ∈ GoMap.keys m ↔ ∃ v, m.get? k = some v := by
  induction m with
  | nil => simp [GoMap.keys, GoMap.get?_nil]
  | cons e m ih =>
    obtain ⟨k0, v0⟩ := e
    rw [GoMap.get?_cons]
    by_cases h : k = k0
    · simp [GoMap.keys, h]
    · have ih' : k ∈ List.map Prod.fst m ↔ ∃ v, GoMap.get? m k = some v := ih
      simp [GoMap.keys, h, ih']

theorem GoMap.set_of_not_mem {α : Type} (m : GoMap α) (k : String) (v : α)
    (h : k ∉ GoMap.keys m) : m.set k v = m ++ [(k, v)] := by
  induction m with
  | nil => rfl
  | cons e m ih =>
    obtain ⟨k0, v0⟩ := e
    have h0 : ¬ k0 = k := by
      intro e
      apply h
      simp [GoMap.keys, e]
    have hm : k ∉ GoMap.keys m := by
      intro hk
      apply h
      simp only [GoMap.keys, List.map_cons, List.mem_cons]
      exact Or.inr hk
    simp [GoMap.set, h0, ih hm]

theorem not_mem_keys_filter {α : Type} (m : GoMap α) (p : String × α → Bool) (k : String)
    (h : k ∉ GoMap.keys m) : k ∉ GoMap.keys (m.filter p) := by
  intro hk
  apply h
  simp only [GoMap.keys, List.mem_map, List.mem_filter] at hk ⊢
  obtain ⟨e, ⟨he, _⟩, hk⟩ := hk
  exact ⟨e, he, hk⟩

theorem create_step_string (pc pu : GoMap GoAny) (k : String) (x : TfString)
    (hk : k ∉ GoMap.keys pu) (h : pc = pu.filter (fun e => !e.2.isNil)) :
    setStringIfNonEmpty pc k x = (setStringOrNil pu k x).filter (fun e => !e.2.isNil) := by
  have hkc : k ∉ GoMap.keys pc := by
    rw [h]
    exact not_mem_keys_filter pu _ k hk
  unfold setStringIfNonEmpty setStringOrNil
  by_cases hx : x.ValueString ≠ ""
  · rw [if_pos hx, if_pos hx, GoMap.set_of_not_mem pc k _ hkc, GoMap.set_of_not_mem pu k _ hk,
      List.filter_append, h]
    simp [GoAny.isNil]
  · rw [if_neg hx, if_neg hx, GoMap.set_of_not_mem pu k _ hk, List.filter_append, h]
    simp [GoAny.isNil]

theorem create_step_int64 (pc pu : GoMap GoAny) (k : String) (x : TfInt64)
    (hk : k ∉ GoMap.keys pu) (h : pc = pu.filter (fun e => !e.2.isNil)) :
    setInt64IfNotNull pc k x = (setInt64OrNil pu k x).filter (fun e => !e.2.isNil) := by
  have hkc : k ∉ GoMap.keys pc := by
    rw [h]
    exact not_mem_keys_filter pu _ k hk
  unfold setInt64IfNotNull setInt64OrNil
  by_cases hx : (!x.IsNull) = true
  · rw [if_pos hx, if_pos hx, GoMap.set_of_not_mem pc k _ hkc, GoMap.set_of_not_mem pu k _ hk,
      List.filter_append, h]
    simp [GoAny.isNil]
  · rw [if_neg hx, if_neg hx, GoMap.set_of_not_mem pu k _ hk, List.filter_append, h]
    simp [GoAny.isNil]

theorem create_step_bool (pc pu : GoMap GoAny) (k : String) (x : TfBool)
    (hk : k ∉ GoMap.keys pu) (h : pc = pu.filter (fun e => !e.2.isNil)) :
    setBoolIfNotNull pc k x = (setBoolOrNil pu k x).filter (fun e => !e.2.isNil) := by
  have hkc : k ∉ GoMap.keys pc := by
    rw [h]
    exact not_mem_keys_filter pu _ k hk
  unfold setBoolIfNotNull setBoolOrNil
  by_cases hx : (!x.IsNull) = true
  · rw [if_pos hx, if_pos hx, GoMap.set_of_not_mem pc k _ hkc, GoMap.set_of_not_mem pu k _ hk,
      List.filter_append, h]
    simp [GoAny.isNil]
  · rw [if_neg hx, if_neg hx, GoMap.set_of_not_mem pu k _ hk, List.filter_append, h]
    simp [GoAny.isNil]

theorem setting_updatePayload_keys (plan : SettingModel) :
    GoMap.keys (SettingResource.updatePayload plan)
      = GoMap.keys (SettingResource.Schema.filter (fun a => !a.2.Computed)) := by
  simp only [SettingResource.updatePayload, keys_setStringOrNil, keys_setInt64OrNil,
    keys_setBoolOrNil]
  decide

theorem file_updatePayload_keys (plan : FileModel) :
    GoMap.keys (FileResource.updatePayload plan)
      = ["title", "description", "filename_download", "storage", "folder", "metadata"] := by
  simp only [FileResource.updatePayload, keys_setStringOrNil]
  decide

/-! ## Lemmas on the association diff -/

theorem foldl_append_if {β γ : Type} (p : β → Bool) (f : β → γ) (l : List β) (init : List γ) :
    l.foldl (fun acc x => if p x then acc ++ [f x] else acc) init
      = init ++ (l.filter p).map f := by
  induction l generalizing init with
  | nil => simp
  | cons x l ih =>
    by_cases h : p x = true
    · simp [List.foldl, List.filter, h, ih]
    · simp [List.foldl, List.filter, h, ih]

namespace RoleResource

theorem memberSet_has_aux (ids : List String) (set : GoMap Unit) (id : String) :
    (ids.foldl (fun set id => set.set id ()) set).has id = true
      ↔ set.has id = true ∨ id ∈ ids := by
  induction ids generalizing set with
  | nil => simp
  | cons x ids ih =>
    simp only [List.foldl, ih, GoMap.has_set, List.mem_cons]
    tauto

theorem memberSet_has (ids : List String) (id : String) :
    (memberSet ids).has id = true ↔ id ∈ ids := by
  unfold memberSet
  rw [memberSet_has_aux]
  simp [GoMap.has, GoMap.get?, List.lookup]

theorem creates_eq (roleID : String) (desired current : List String) :
    creates roleID desired current
      = (desired.filter (fun id => decide (id ∉ current))).map (assoc roleID) := by
  unfold creates
  simp only []
  rw [foldl_append_if (fun id => !(memberSet current).has id) (assoc roleID)]
  simp only [List.nil_append]
  congr 1
  apply List.filter_congr
  intro id _
  by_cases h : id ∈ current
  · simp [h, (memberSet_has current id).2 h]
  · have : (memberSet current).has id = false := by
      cases hh : (memberSet current).has id
      · rfl
      · exact absurd ((memberSet_has current id).1 hh) h
    simp [h, this]

theorem deletes_eq (roleID : String) (desired current : List String) :
    deletes roleID desired current
      = (current.filter (fun id => decide (id ∉ desired))).map (assoc roleID) := by
  unfold deletes
  simp only []
  rw [foldl_append_if (fun id => !(memberSet desired).has id) (assoc roleID)]
  simp only [List.nil_append]
  congr 1
  apply List.filter_congr
  intro id _
  by_cases h : id ∈ desired
  · simp [h, (memberSet_has desired id).2 h]
  · have : (memberSet desired).has id = false := by
      cases hh : (memberSet desired).has id
      · rfl
      · exact absurd ((memberSet_has desired id).1 hh) h
    simp [h, this]

end RoleResource

theorem assocPolicyID_assoc (roleID id : String) :
    assocPolicyID (RoleResource.assoc roleID id) = some id := by
  simp [assocPolicyID, RoleResource.assoc, GoAny.asMap, GoAny.index, GoAny.asString,
    GoMap.get?_cons, GoMap.get?_nil]

theorem assocRole_assoc (roleID id : String) :
    assocRole (RoleResource.assoc roleID id) = some roleID := by
  simp [assocRole, RoleResource.assoc, GoAny.asMap, GoAny.index, GoAny.asString,
    GoMap.get?_cons, GoMap.get?_nil]

theorem policyIDs_map_assoc (roleID : String) (ids : List String) :
    policyIDs (ids.map (RoleResource.assoc roleID)) = ids := by
  induction ids with
  | nil => rfl
  | cons id ids ih =>
    unfold policyIDs at ih ⊢
    simp [List.filterMap_cons, assocPolicyID_assoc, ih]

/-! ## The association diff of `RoleResource.Update` -/

/-- C1 (association diff convergence): for all lists `desired` and `current` of policy
IDs, removing from the set of `current` the policy IDs of `deletes` and adding the
policy IDs of `creates` gives the set of `desired`. -/
theorem diff_converges (roleID : String) (desired current : List String) :
    (current.toFinset \ (policyIDs (RoleResource.deletes roleID desired current)).toFinset)
        ∪ (policyIDs (RoleResource.creates roleID desired current)).toFinset
      = desired.toFinset := by
  rw [RoleResource.creates_eq, RoleResource.deletes_eq, policyIDs_map_assoc,
    policyIDs_map_assoc]
  ext id
  simp only [Finset.mem_union, Finset.mem_sdiff, List.mem_toFinset, List.mem_filter,
    decide_eq_true_eq]
  tauto

/-- C2 (create/delete disjointness): for all lists `desired` and `current`, duplicates
allowed, no policy ID occurs both among the `creates` and among the `deletes`. -/
theorem creates_deletes_disjoint (roleID : String) (desired current : List String)
    (id : String) :
    ¬ (id ∈ policyIDs (RoleResource.creates roleID desired current)
        ∧ id ∈ policyIDs (RoleResource.deletes roleID desired current)) := by
  rw [RoleResource.creates_eq, RoleResource.deletes_eq, policyIDs_map_assoc,
    policyIDs_map_assoc]
  simp only [List.mem_filter, decide_eq_true_eq]
  tauto

/-- C3 (diff idempotence): the diff of a list `D` against itself has no `creates` and
no `deletes`. -/
theorem diff_self_empty (roleID : String) (D : List String) :
    RoleResource.creates roleID D D = [] ∧ RoleResource.deletes roleID D D = [] := by
  rw [RoleResource.creates_eq, RoleResource.deletes_eq]
  constructor <;>
  · rw [List.map_eq_nil_iff, List.filter_eq_nil_iff]
    intro id h
    simp [h]

/-- C4 (full-cycle idempotence): with `(c, d)` the diff of `D` against `O`, and `O'`
obtained from `O` by removing every ID of `d` and appending the IDs of `c`, the diff of
`D` against `O'` has no `creates` and no `deletes`. -/
theorem diff_after_apply_empty (roleID : String) (D O : List String) :
    RoleResource.creates roleID D
        (O.filter (fun id => decide (id ∉ policyIDs (RoleResource.deletes roleID D O)))
          ++ policyIDs (RoleResource.creates roleID D O)) = []
      ∧ RoleResource.deletes roleID D
        (O.filter (fun id => decide (id ∉ policyIDs (RoleResource.deletes roleID D O)))
          ++ policyIDs (RoleResource.creates roleID D O)) = [] := by
  have hc : policyIDs (RoleResource.creates roleID D O)
      = D.filter (fun id => decide (id ∉ O)) := by
    rw [RoleResource.creates_eq, policyIDs_map_assoc]
  have hd : policyIDs (RoleResource.deletes roleID D O)
      = O.filter (fun id => decide (id ∉ D)) := by
    rw [RoleResource.deletes_eq, policyIDs_map_assoc]
  rw [hc, hd]
  have hO : ∀ id, id ∈ O.filter (fun id => decide (id ∉ O.filter (fun id => decide (id ∉ D))))
      ++ D.filter (fun id => decide (id ∉ O)) ↔ id ∈ D := by
    intro id
    simp only [List.mem_append, List.mem_filter, decide_eq_true_eq]
    tauto
  rw [RoleResource.creates_eq, RoleResource.deletes_eq]
  constructor
  · rw [List.map_eq_nil_iff, List.filter_eq_nil_iff]
    intro id h
    simp only [decide_eq_true_eq, not_not]
    exact (hO id).2 h
  · rw [List.map_eq_nil_iff, List.filter_eq_nil_iff]
    intro id h
    simp only [decide_eq_true_eq, not_not]
    exact (hO id).1 h

/-- C5 (`creates` is an order-preserving filter): the `creates` are the associations,
owned by the role, of the sub-list of `desired`, in order and with duplicates kept, of
the IDs that do not occur in `current`; `desired = [p1, p2]` and `current = [p2, p3]`
give the single association of `p1`. -/
theorem creates_is_filter (roleID : String) (desired current : List String) :
    RoleResource.creates roleID desired current
        = (desired.filter (fun id => decide (id ∉ current))).map (RoleResource.assoc roleID)
      ∧ policyIDs (RoleResource.creates roleID desired current)
        = desired.filter (fun id => decide (id ∉ current))
      ∧ (∀ a ∈ RoleResource.creates roleID desired current, assocRole a = some roleID)
      ∧ RoleResource.creates roleID ["p1", "p2"] ["p2", "p3"]
        = [RoleResource.assoc roleID "p1"] := by
  refine ⟨RoleResource.creates_eq _ _ _, ?_, ?_, ?_⟩
  · rw [RoleResource.creates_eq, policyIDs_map_assoc]
  · intro a ha
    rw [RoleResource.creates_eq, List.mem_map] at ha
    obtain ⟨id, _, rfl⟩ := ha
    exact assocRole_assoc roleID id
  · have h : (["p1", "p2"].filter (fun id => decide (id ∉ ["p2", "p3"]))) = ["p1"] := by
      decide
    rw [RoleResource.creates_eq, h]
    rfl

/-- C6 (`deletes` is an order-preserving filter): the `deletes` are the associations,
owned by the role, of the sub-list of `current`, in order, of the IDs that do not occur
in `desired`; `desired = [p1, p2]` and `current = [p2, p3]` give the single association
of `p3`. -/
theorem deletes_is_filter (roleID : String) (desired current : List String) :
    RoleResource.deletes roleID desired current
        = (current.filter (fun id => decide (id ∉ desired))).map (RoleResource.assoc roleID)
      ∧ policyIDs (RoleResource.deletes roleID desired current)
        = current.filter (fun id => decide (id ∉ desired))
      ∧ (∀ a ∈ RoleResource.deletes roleID desired current, assocRole a = some roleID)
      ∧ RoleResource.deletes roleID ["p1", "p2"] ["p2", "p3"]
        = [RoleResource.assoc roleID "p3"] := by
  refine ⟨RoleResource.deletes_eq _ _ _, ?_, ?_, ?_⟩
  · rw [RoleResource.deletes_eq, policyIDs_map_assoc]
  · intro a ha
    rw [RoleResource.deletes_eq, List.mem_map] at ha
    obtain ⟨id, _, rfl⟩ := ha
    exact assocRole_assoc roleID id
  · have h : (["p2", "p3"].filter (fun id => decide (id ∉ ["p1", "p2"]))) = ["p3"] := by
      decide
    rw [RoleResource.deletes_eq, h]
    rfl

/-- C7 (an empty desired set detaches everything): a known, empty planned set gives the
empty `desired` list, and for every observed list `O` the diff then has no `creates`
and its `deletes` are the associations of all of `O`, in order; `O = [p1]` gives the
single association of `p1`. -/
theorem empty_desired_detaches_all (roleID : String) (O : List String) :
    (TfSet.known []).IsNull = false
      ∧ (TfSet.known []).ElementsAs = some []
      ∧ RoleResource.creates roleID [] O = []
      ∧ RoleResource.deletes roleID [] O = O.map (RoleResource.assoc roleID)
      ∧ policyIDs (RoleResource.deletes roleID [] O) = O
      ∧ RoleResource.deletes roleID [] ["p1"] = [RoleResource.assoc roleID "p1"] := by
  have hd : RoleResource.deletes roleID [] O = O.map (RoleResource.assoc roleID) := by
    rw [RoleResource.deletes_eq]
    simp
  refine ⟨rfl, rfl, rfl, hd, ?_, ?_⟩
  · rw [hd, policyIDs_map_assoc]
  · rw [RoleResource.deletes_eq]
    simp

/-! ## The requests of `RoleResource.Update` -/

/-- C8 (no-op skip): in `RoleResource.Update` with declared policies, once the PATCH of
the role's fields and the GET of its current policies have succeeded, the batched
association PATCH is sent exactly when `creates` or `deletes` is non-empty: then the
requests are the field PATCH, the GET and the association PATCH, and when both are
empty the requests are the field PATCH and the GET only. -/
theorem update_skips_empty_batch {σ : Type} (lib : Lib) (client : Transport σ) (remote : σ)
    (plan state : RoleModel) (desired : List String)
    (resp1 resp2 : HttpResponse) (remote1 remote2 : σ) (data : GoMap GoAny)
    (hnull : plan.Policies.IsNull = false)
    (hdesired : plan.Policies.ElementsAs = some desired)
    (hpatch : client remote (RoleResource.updateFieldsRequest { plan with ID := state.ID })
      = (.ok resp1, remote1))
    (hstatus1 : resp1.StatusCode < 300)
    (hget : client remote1 (RoleResource.fetchPoliciesRequest { plan with ID := state.ID })
      = (.ok resp2, remote2))
    (hstatus2 : resp2.StatusCode < 300)
    (hdata : lib.decodeData resp2.Body = .ok data) :
    (RoleResource.creates state.ID.ValueString desired (RoleResource.current lib data) ≠ []
        ∨ RoleResource.deletes state.ID.ValueString desired (RoleResource.current lib data) ≠ [] →
        (RoleResource.Update lib client remote plan state).requests
          = [RoleResource.updateFieldsRequest { plan with ID := state.ID },
              RoleResource.fetchPoliciesRequest { plan with ID := state.ID },
              RoleResource.patchPoliciesRequest { plan with ID := state.ID }
                (RoleResource.creates state.ID.ValueString desired (RoleResource.current lib data))
                (RoleResource.deletes state.ID.ValueString desired
                  (RoleResource.current lib data))])
      ∧ (RoleResource.creates state.ID.ValueString desired (RoleResource.current lib data) = []
        ∧ RoleResource.deletes state.ID.ValueString desired (RoleResource.current lib data) = [] →
        (RoleResource.Update lib client remote plan state).requests
          = [RoleResource.updateFieldsRequest { plan with ID := state.ID },
              RoleResource.fetchPoliciesRequest { plan with ID := state.ID }]) := by
  have hp1 : parseResp lib resp1 true = .ok [] := by
    simp [parseResp, not_le.mpr hstatus1]
  have hp2 : parseResp lib resp2 false = .ok data := by
    simp [parseResp, not_le.mpr hstatus2, hdata]
  constructor
  · intro hne
    have hlen : ((RoleResource.creates state.ID.ValueString desired
        (RoleResource.current lib data)).length > 0
        || (RoleResource.deletes state.ID.ValueString desired
        (RoleResource.current lib data)).length > 0) = true := by
      rcases hne with h | h
      · simp [List.length_pos.mpr h]
      · simp [List.length_pos.mpr h]
    unfold RoleResource.Update
    simp only [hpatch, hp1, hnull, hdesired, hget, hp2, Bool.not_false, if_true]
    simp only [hlen, if_true]
    rcases hc : client remote2 (RoleResource.patchPoliciesRequest { plan with ID := state.ID }
        (RoleResource.creates state.ID.ValueString desired (RoleResource.current lib data))
        (RoleResource.deletes state.ID.ValueString desired (RoleResource.current lib data)))
      with ⟨r | resp3, remote3⟩
    · rfl
    · simp only []
      cases parseResp lib resp3 true <;> rfl
  · rintro ⟨hc, hd⟩
    unfold RoleResource.Update
    simp only [hpatch, hp1, hnull, hdesired, hget, hp2, Bool.not_false, if_true]
    simp [hc, hd]

theorem current_exampleData : RoleResource.current exampleLib exampleData = ["p2"] := by
  simp [RoleResource.current, exampleData, GoAny.index, GoAny.asSlice, GoAny.asMap,
    GoMap.get?_cons, GoMap.get?_nil, str]

/-- Witness of C8: with the policy `p1` declared and `p2` attached, `Update` sends the
field PATCH, the GET and the association PATCH (attach `p1`, detach `p2`); with `p2`
declared and `p2` attached it sends the field PATCH and the GET only. -/
theorem update_skips_empty_batch_witness :
    (RoleResource.Update exampleLib exampleClient () examplePlan exampleState).requests
        = [RoleResource.updateFieldsRequest { examplePlan with ID := .value "r1" },
            RoleResource.fetchPoliciesRequest { examplePlan with ID := .value "r1" },
            RoleResource.patchPoliciesRequest { examplePlan with ID := .value "r1" }
              [RoleResource.assoc "r1" "p1"] [RoleResource.assoc "r1" "p2"]]
      ∧ (RoleResource.Update exampleLib exampleClient () examplePlanSame exampleState).requests
        = [RoleResource.updateFieldsRequest { examplePlanSame with ID := .value "r1" },
            RoleResource.fetchPoliciesRequest { examplePlanSame with ID := .value "r1" }] := by
  have hc1 : RoleResource.creates "r1" ["p1"] ["p2"] = [RoleResource.assoc "r1" "p1"] := by
    have h : (["p1"].filter (fun id => decide (id ∉ ["p2"]))) = ["p1"] := by decide
    rw [RoleResource.creates_eq, h]
    rfl
  have hd1 : RoleResource.deletes "r1" ["p1"] ["p2"] = [RoleResource.assoc "r1" "p2"] := by
    have h : (["p2"].filter (fun id => decide (id ∉ ["p1"]))) = ["p2"] := by decide
    rw [RoleResource.deletes_eq, h]
    rfl
  have h1 := (update_skips_empty_batch exampleLib exampleClient () examplePlan exampleState
    ["p1"] ⟨200, ""⟩ ⟨200, ""⟩ () () exampleData rfl rfl rfl (by decide) rfl (by decide) rfl).1
  have h2 := (update_skips_empty_batch exampleLib exampleClient () examplePlanSame exampleState
    ["p2"] ⟨200, ""⟩ ⟨200, ""⟩ () () exampleData rfl rfl rfl (by decide) rfl (by decide) rfl).2
  simp only [current_exampleData] at h1 h2
  have hv : exampleState.ID.ValueString = "r1" := rfl
  rw [hv, hc1, hd1] at h1
  rw [hv] at h2
  refine ⟨h1 (Or.inl (by simp)), h2 ⟨?_, ?_⟩⟩
  · have h : (["p2"].filter (fun id => decide (id ∉ ["p2"]))) = [] := by decide
    rw [RoleResource.creates_eq, h]
    rfl
  · have h : (["p2"].filter (fun id => decide (id ∉ ["p2"]))) = [] := by decide
    rw [RoleResource.deletes_eq, h]
    rfl

/-! ## The update encodings of `setting.go` and `file.go` -/

/-- C9 (setting update total-field coverage): for every plan, the keys of the payload
of `SettingResource.Update` are exactly the schema attributes that are not computed,
which are all attributes except `id` and `project_id`; no key occurs twice, and the
value under each key is the plan's value of that attribute or explicit null. -/
theorem setting_update_covers_all_fields (plan : SettingModel) :
    (∀ k, k ∈ GoMap.keys (SettingResource.updatePayload plan)
        ↔ ∃ a, (k, a) ∈ SettingResource.Schema ∧ a.Computed = false)
      ∧ (∀ k, k ∈ GoMap.keys (SettingResource.updatePayload plan)
        ↔ k ∈ GoMap.keys SettingResource.Schema ∧ k ≠ "id" ∧ k ≠ "project_id")
      ∧ (GoMap.keys (SettingResource.updatePayload plan)).Nodup
      ∧ (∀ k v, (SettingResource.updatePayload plan).get? k = some v →
          ∃ a, plan.tfsdk.get? k = some a ∧ (v = a.goValue ∨ v = GoAny.nil)) := by
  refine ⟨?_, ?_, ?_, ?_⟩
  · intro k
    rw [setting_updatePayload_keys]
    simp [GoMap.keys, List.mem_map, List.mem_filter]
  · intro k
    have h : GoMap.keys (SettingResource.Schema.filter (fun a => !a.2.Computed))
        = (GoMap.keys SettingResource.Schema).filter
            (fun k => decide (k ≠ "id") && decide (k ≠ "project_id")) := by
      decide
    rw [setting_updatePayload_keys, h]
    simp [List.mem_filter]
  · rw [setting_updatePayload_keys]
    decide
  · unfold SettingResource.updatePayload
    simp only []
    repeat (first
      | refine values_setStringOrNil _ _ _ _ ?_ rfl
      | refine values_setInt64OrNil _ _ _ _ ?_ rfl
      | refine values_setBoolOrNil _ _ _ _ ?_ rfl)
    intro k v h
    simp [GoMap.get?] at h

/-- C10 (file update total-field coverage), evaluated on the code: for every plan the
payload of `FileResource.Update` has the six keys `title`, `description`,
`filename_download`, `storage`, `folder`, `metadata` only; for the plan that declares
`type = "image/png"` the create payload carries the key `type` and the update payload
does not. -/
theorem file_update_omits_fields :
    (∀ plan : FileModel, GoMap.keys (FileResource.updatePayload plan)
        = ["title", "description", "filename_download", "storage", "folder", "metadata"])
      ∧ "type" ∈ GoMap.keys (FileResource.createPayload exampleFilePlan)
      ∧ "type" ∉ GoMap.keys (FileResource.updatePayload exampleFilePlan) := by
  refine ⟨file_updatePayload_keys, ?_, ?_⟩
  · decide
  · rw [file_updatePayload_keys]
    decide

/-! ## The update encoding of `role.go` -/

/-- C11 (role update null-encoding): for every plan, the payload of the field PATCH of
`RoleResource.Update` has exactly the keys `name`, `icon` and `description`; `icon` and
`description` hold `nullableStr` of the planned value, which is explicit null if and only
if the planned value is null or the empty string, and is the planned string unchanged
otherwise. -/
theorem role_update_null_encoding (plan state : RoleModel) :
    (RoleResource.updateFieldsRequest { plan with ID := state.ID }).body
        = some (GoAny.map
            [ ("name", GoAny.str plan.Name.ValueString),
              ("icon", nullableStr plan.Icon),
              ("description", nullableStr plan.Description) ])
      ∧ (∀ v : TfString, nullableStr v = GoAny.nil ↔ (v.IsNull = true ∨ v.ValueString = ""))
      ∧ (∀ v : TfString, ¬ (v.IsNull = true ∨ v.ValueString = "") →
          nullableStr v = GoAny.str v.ValueString)
      ∧ nullableStr TfString.null = GoAny.nil
      ∧ nullableStr (TfString.value "") = GoAny.nil
      ∧ (∀ s : String, s ≠ "" → nullableStr (TfString.value s) = GoAny.str s) := by
  refine ⟨rfl, ?_, ?_, ?_, ?_, ?_⟩
  · intro v
    unfold nullableStr
    by_cases h : (v.IsNull || v.ValueString == "") = true
    · rw [if_pos h]
      simpa using h
    · rw [if_neg h]
      simpa using h
  · intro v hv
    unfold nullableStr
    have h : ¬ ((v.IsNull || v.ValueString == "") = true) := by simpa using hv
    rw [if_neg h]
  · rfl
  · rfl
  · intro s hs
    unfold nullableStr
    have h : ¬ ((TfString.IsNull (.value s) || TfString.ValueString (.value s) == "") = true) := by
      simpa [TfString.IsNull, TfString.ValueString] using hs
    rw [if_neg h]
    rfl

/-! ## The encodings of `policy.go` -/

/-- C12, as stated, fails: for the plan that leaves `icon` and `enforce_tfa` unset, the
payload of `PolicyResource.Update` holds the empty string under `icon` and `false` under
`enforce_tfa`, not null. -/
theorem policy_update_unset_not_null :
    examplePolicyPlan.Icon = TfString.null
      ∧ examplePolicyPlan.EnforceTFA = TfBool.null
      ∧ (PolicyResource.updatePayload examplePolicyPlan).get? "icon" = some (GoAny.str "")
      ∧ (PolicyResource.updatePayload examplePolicyPlan).get? "icon" ≠ some GoAny.nil
      ∧ (PolicyResource.updatePayload examplePolicyPlan).get? "enforce_tfa"
          = some (GoAny.bool false)
      ∧ (PolicyResource.updatePayload examplePolicyPlan).get? "enforce_tfa" ≠ some GoAny.nil := by
  simp [PolicyResource.updatePayload, examplePolicyPlan, GoMap.get?_cons, GoMap.get?_nil,
    TfString.ValueString, TfBool.ValueBool]

/-- C12, amended: for every plan, the payload of `PolicyResource.Update` has the keys
`name`, `icon`, `description`, `ip_access`, `enforce_tfa`, `admin_access`, `app_access`;
`icon` and `description` hold the planned string, the empty string when unset; the three
booleans hold the planned boolean, `false` when unset; no key holds null. -/
theorem policy_update_sends_values (plan : PolicyModel) :
    GoMap.keys (PolicyResource.updatePayload plan)
        = ["name", "icon", "description", "ip_access", "enforce_tfa", "admin_access",
            "app_access"]
      ∧ (PolicyResource.updatePayload plan).get? "icon" = some (GoAny.str plan.Icon.ValueString)
      ∧ (PolicyResource.updatePayload plan).get? "description"
          = some (GoAny.str plan.Description.ValueString)
      ∧ (PolicyResource.updatePayload plan).get? "enforce_tfa"
          = some (GoAny.bool plan.EnforceTFA.ValueBool)
      ∧ (PolicyResource.updatePayload plan).get? "admin_access"
          = some (GoAny.bool plan.AdminAccess.ValueBool)
      ∧ (PolicyResource.updatePayload plan).get? "app_access"
          = some (GoAny.bool plan.AppAccess.ValueBool)
      ∧ TfString.null.ValueString = "" ∧ TfBool.null.ValueBool = false
      ∧ (∀ k, (PolicyResource.updatePayload plan).get? k ≠ some GoAny.nil) := by
  refine ⟨rfl, ?_, ?_, ?_, ?_, ?_, rfl, rfl, ?_⟩
  · simp [PolicyResource.updatePayload, GoMap.get?_cons]
  · simp [PolicyResource.updatePayload, GoMap.get?_cons]
  · simp [PolicyResource.updatePayload, GoMap.get?_cons]
  · simp [PolicyResource.updatePayload, GoMap.get?_cons]
  · simp [PolicyResource.updatePayload, GoMap.get?_cons]
  · intro k
    simp only [PolicyResource.updatePayload, GoMap.get?_cons, GoMap.get?_nil]
    repeat' split
    all_goals simp

/-- C14, as stated, fails: for the plan that leaves every optional field unset, the
payload of `PolicyResource.Create` still has the keys `icon`, `description`, `ip_access`,
`enforce_tfa`, `admin_access` and `app_access`. -/
theorem policy_create_keeps_unset_keys :
    examplePolicyPlan.Icon = TfString.null
      ∧ examplePolicyPlan.Description = TfString.null
      ∧ examplePolicyPlan.IPAccess = []
      ∧ examplePolicyPlan.EnforceTFA = TfBool.null
      ∧ examplePolicyPlan.AdminAccess = TfBool.null
      ∧ examplePolicyPlan.AppAccess = TfBool.null
      ∧ GoMap.keys (PolicyResource.createPayload examplePolicyPlan)
          = ["name", "icon", "description", "ip_access", "enforce_tfa", "admin_access",
              "app_access"]
      ∧ "icon" ∈ GoMap.keys (PolicyResource.createPayload examplePolicyPlan) := by
  refine ⟨rfl, rfl, rfl, rfl, rfl, rfl, rfl, ?_⟩
  decide

/-- C14, amended: for every plan, the payload of `PolicyResource.Create` has all of the
keys `name`, `icon`, `description`, `ip_access`, `enforce_tfa`, `admin_access`,
`app_access`, none is omitted; an unset `icon` or `description` is sent as the empty
string, an unset `ip_access` as the empty list and an unset boolean as `false`. -/
theorem policy_create_sends_every_key (plan : PolicyModel) :
    GoMap.keys (PolicyResource.createPayload plan)
        = ["name", "icon", "description", "ip_access", "enforce_tfa", "admin_access",
            "app_access"]
      ∧ PolicyResource.createPayload plan
        = [ ("name", GoAny.str plan.Name.ValueString),
            ("icon", GoAny.str plan.Icon.ValueString),
            ("description", GoAny.str plan.Description.ValueString),
            ("ip_access", GoAny.slice ((expandStringList plan.IPAccess).map GoAny.str)),
            ("enforce_tfa", GoAny.bool plan.EnforceTFA.ValueBool),
            ("admin_access", GoAny.bool plan.AdminAccess.ValueBool),
            ("app_access", GoAny.bool plan.AppAccess.ValueBool) ]
      ∧ TfString.null.ValueString = "" ∧ TfBool.null.ValueBool = false
      ∧ expandStringList [] = [] :=
  ⟨rfl, rfl, rfl, rfl, rfl⟩

/-! ## The create encoding of `file.go` -/

/-- C13 (file create omission): for every plan and each of the 13 fields encoded by
`FileResource.Create`, the payload has the field's key exactly when the planned value is
a non-empty string (a non-zero integer for `width`, `height`, `filesize`, `duration`),
and the key then holds that value; the payload has no other key. -/
theorem file_create_omits_empty (plan : FileModel) :
    ((FileResource.createPayload plan).get? "title"
        = if plan.Title.ValueString ≠ "" then some (GoAny.str plan.Title.ValueString) else none)
      ∧ ((FileResource.createPayload plan).get? "description"
        = if plan.Description.ValueString ≠ "" then some (GoAny.str plan.Description.ValueString) else none)
      ∧ ((FileResource.createPayload plan).get? "filename_download"
        = if plan.FilenameDownload.ValueString ≠ "" then some (GoAny.str plan.FilenameDownload.ValueString) else none)
      ∧ ((FileResource.createPayload plan).get? "storage"
        = if plan.Storage.ValueString ≠ "" then some (GoAny.str plan.Storage.ValueString) else none)
      ∧ ((FileResource.createPayload plan).get? "folder"
        = if plan.Folder.ValueString ≠ "" then some (GoAny.str plan.Folder.ValueString) else none)
      ∧ ((FileResource.createPayload plan).get? "metadata"
        = if plan.Metadata.ValueString ≠ "" then some (GoAny.str plan.Metadata.ValueString) else none)
      ∧ ((FileResource.createPayload plan).get? "checksum"
        = if plan.Checksum.ValueString ≠ "" then some (GoAny.str plan.Checksum.ValueString) else none)
      ∧ ((FileResource.createPayload plan).get? "width"
        = if plan.Width.ValueInt64 ≠ 0 then some (GoAny.int64 plan.Width.ValueInt64) else none)
      ∧ ((FileResource.createPayload plan).get? "height"
        = if plan.Height.ValueInt64 ≠ 0 then some (GoAny.int64 plan.Height.ValueInt64) else none)
      ∧ ((FileResource.createPayload plan).get? "filesize"
        = if plan.Filesize.ValueInt64 ≠ 0 then some (GoAny.int64 plan.Filesize.ValueInt64) else none)
      ∧ ((FileResource.createPayload plan).get? "duration"
        = if plan.Duration.ValueInt64 ≠ 0 then some (GoAny.int64 plan.Duration.ValueInt64) else none)
      ∧ ((FileResource.createPayload plan).get? "type"
        = if plan.Type_.ValueString ≠ "" then some (GoAny.str plan.Type_.ValueString) else none)
      ∧ ((FileResource.createPayload plan).get? "filename_disk"
        = if plan.FilenameDisk.ValueString ≠ "" then some (GoAny.str plan.FilenameDisk.ValueString) else none)
      ∧ (∀ k, k ∈ GoMap.keys (FileResource.createPayload plan) →
          k ∈ ["title", "description", "filename_download", "storage", "folder", "metadata", "checksum", "width", "height", "filesize", "duration", "type", "filename_disk"]) := by
  have hget : ∀ k, (FileResource.createPayload plan).get? k
      = if k = "filename_disk" ∧ plan.FilenameDisk.ValueString ≠ "" then
          some (GoAny.str plan.FilenameDisk.ValueString)
        else if k = "type" ∧ plan.Type_.ValueString ≠ "" then
          some (GoAny.str plan.Type_.ValueString)
        else if k = "duration" ∧ plan.Duration.ValueInt64 ≠ 0 then
          some (GoAny.int64 plan.Duration.ValueInt64)
        else if k = "filesize" ∧ plan.Filesize.ValueInt64 ≠ 0 then
          some (GoAny.int64 plan.Filesize.ValueInt64)
        else if k = "height" ∧ plan.Height.ValueInt64 ≠ 0 then
          some (GoAny.int64 plan.Height.ValueInt64)
        else if k = "width" ∧ plan.Width.ValueInt64 ≠ 0 then
          some (GoAny.int64 plan.Width.ValueInt64)
        else if k = "checksum" ∧ plan.Checksum.ValueString ≠ "" then
          some (GoAny.str plan.Checksum.ValueString)
        else if k = "metadata" ∧ plan.Metadata.ValueString ≠ "" then
          some (GoAny.str plan.Metadata.ValueString)
        else if k = "folder" ∧ plan.Folder.ValueString ≠ "" then
          some (GoAny.str plan.Folder.ValueString)
        else if k = "storage" ∧ plan.Storage.ValueString ≠ "" then
          some (GoAny.str plan.Storage.ValueString)
        else if k = "filename_download" ∧ plan.FilenameDownload.ValueString ≠ "" then
          some (GoAny.str plan.FilenameDownload.ValueString)
        else if k = "description" ∧ plan.Description.ValueString ≠ "" then
          some (GoAny.str plan.Description.ValueString)
        else if k = "title" ∧ plan.Title.ValueString ≠ "" then
          some (GoAny.str plan.Title.ValueString)
        else none := by
    intro k
    simp only [FileResource.createPayload, get?_setStringIfNonEmpty, get?_setInt64IfNonZero,
      GoMap.get?_nil]
  refine ⟨?_, ?_, ?_, ?_, ?_, ?_, ?_, ?_, ?_, ?_, ?_, ?_, ?_, ?_⟩
  any_goals (rw [hget]; simp)
  intro k hk
  obtain ⟨v, hv⟩ := (mem_keys_iff_get? _ k).1 hk
  rw [hget] at hv
  by_contra hn
  simp only [List.mem_cons, List.mem_singleton, List.mem_nil_iff, or_false, not_or] at hn
  simp [hn] at hv

/-! ## The encoding of raw JSON -/

/-- C15, as stated, fails: the text of one space is non-empty and is not valid JSON,
yet `rawJSON.MarshalJSON` does not fail on it: it encodes it as `null`. -/
theorem rawjson_blank_is_not_rejected :
    rawJSON.MarshalJSON exampleLib " " = .ok "null"
      ∧ ¬ ((∃ e, rawJSON.MarshalJSON exampleLib " " = .error e)
            ↔ (" " ≠ "" ∧ exampleLib.jsonValid " " = false)) := by
  have ht : exampleLib.trimSpace " " = "" := by decide
  have h : rawJSON.MarshalJSON exampleLib " " = .ok "null" := by
    unfold rawJSON.MarshalJSON
    rw [if_pos ht]
  refine ⟨h, ?_⟩
  intro hiff
  obtain ⟨e, he⟩ := hiff.2 ⟨by decide, by decide⟩
  rw [h] at he
  cases he

/-- C15, amended: `rawJSON.MarshalJSON` fails if and only if the text is not blank (its
`strings.TrimSpace` is non-empty) and is not valid JSON; a blank text is encoded as
`null`. -/
theorem rawjson_fails_iff_invalid (lib : Lib) (r : String) :
    ((∃ e, rawJSON.MarshalJSON lib r = .error e)
        ↔ (lib.trimSpace r ≠ "" ∧ lib.jsonValid r = false))
      ∧ (lib.trimSpace r = "" → rawJSON.MarshalJSON lib r = .ok "null") := by
  unfold rawJSON.MarshalJSON
  by_cases ht : lib.trimSpace r = ""
  · simp [ht]
  · cases hv : lib.jsonValid r <;> simp [ht, hv]

/-- C16 (raw JSON pass-through): for every text that is valid JSON, `json.Valid`
rejecting blank text, `rawJSON.MarshalJSON` succeeds and returns the text unchanged. -/
theorem rawjson_passes_valid_text (lib : Lib) (r : String)
    (hvalid : lib.jsonValid r = true)
    (hblank : lib.trimSpace r = "" → lib.jsonValid r = false) :
    rawJSON.MarshalJSON lib r = .ok r := by
  have ht : ¬ lib.trimSpace r = "" := by
    intro h
    rw [hblank h] at hvalid
    cases hvalid
  unfold rawJSON.MarshalJSON
  simp [ht, hvalid]

/-- Witness of C16: the valid JSON text `[1]` is returned unchanged. -/
theorem rawjson_passes_valid_text_witness :
    exampleLib.jsonValid "[1]" = true ∧ rawJSON.MarshalJSON exampleLib "[1]" = .ok "[1]" :=
  ⟨by decide, rawjson_passes_valid_text exampleLib "[1]" (by decide) (by decide)⟩

/-! ## The decoding of permission identifiers -/

theorem int64OfFloat64_intCast (lib : Lib) (n : Int)
    (hrange : -(2 : Int) ^ 63 ≤ n ∧ n < (2 : Int) ^ 63) :
    int64OfFloat64 lib (n : ℚ) = n := by
  unfold int64OfFloat64
  simp only [Rat.num_intCast, Rat.den_intCast, Nat.cast_one, Int.tdiv_one]
  rw [if_pos hrange]

theorem createDecodeID_eq (lib : Lib) (ID : TfInt64) (n : Int) (id : GoAny)
    (hrange : -(2 : Int) ^ 63 ≤ n ∧ n < (2 : Int) ^ 63)
    (hparse : lib.parseInt (toString n) = some n)
    (hid : id = GoAny.float64 (n : ℚ) ∨ id = GoAny.int n ∨ id = GoAny.int64 n
      ∨ id = GoAny.str (toString n)) :
    PermissionResource.createDecodeID lib ID id = TfInt64.value n := by
  rcases hid with h | h | h | h <;> subst h
  · simp [PermissionResource.createDecodeID, int64OfFloat64_intCast lib n hrange]
  · rfl
  · rfl
  · simp [PermissionResource.createDecodeID, hparse]

/-- C17 (numeric ID decoding on permission create): for every integer `n` of the 64-bit
range, when the POST of `PermissionResource.Create` succeeds and the `id` of the response
record is the float `n.0`, the integer `n` or the decimal string of `n`
(`strconv.ParseInt` reading that string as `n`), the tracked ID is set to `n` and no
error is reported. -/
theorem permission_create_decodes_id {σ : Type} (lib : Lib) (client : Transport σ)
    (remote remote1 : σ) (plan : PermissionModel) (n : Int) (resp : HttpResponse)
    (data : GoMap GoAny)
    (hrange : -(2 : Int) ^ 63 ≤ n ∧ n < (2 : Int) ^ 63)
    (hparse : lib.parseInt (toString n) = some n)
    (hpost : client remote
      ⟨"POST", "/permissions", some (GoAny.map (PermissionResource.createPayload plan))⟩
      = (.ok resp, remote1))
    (hstatus : resp.StatusCode < 300)
    (hdata : lib.decodeData resp.Body = .ok data)
    (hid : GoAny.index data "id" = GoAny.float64 (n : ℚ)
      ∨ GoAny.index data "id" = GoAny.int n
      ∨ GoAny.index data "id" = GoAny.int64 n
      ∨ GoAny.index data "id" = GoAny.str (toString n)) :
    (PermissionResource.Create lib client remote plan).stateSet.map (fun m => m.ID)
        = some (TfInt64.value n)
      ∧ (PermissionResource.Create lib client remote plan).diags = [] := by
  have hp : parseResp lib resp false = .ok data := by
    simp [parseResp, not_le.mpr hstatus, hdata]
  have hd := createDecodeID_eq lib plan.ID n _ hrange hparse hid
  unfold PermissionResource.Create
  simp only [hpost, hp, hd]
  constructor
  · cases (GoAny.index data "policy").asString <;>
      cases (GoAny.index data "system").asBool <;> rfl
  · trivial

/-- Witness of C17: the `id` values `42.0`, `42` and `"42"` of the response record all
give the tracked ID `42`. -/
theorem permission_create_decodes_id_witness :
    (PermissionResource.Create (exampleLibWith [("id", GoAny.float64 ((42 : Int) : ℚ))])
        exampleClient () examplePermissionPlan).stateSet.map (fun m => m.ID)
        = some (TfInt64.value 42)
      ∧ (PermissionResource.Create (exampleLibWith [("id", GoAny.int 42)])
        exampleClient () examplePermissionPlan).stateSet.map (fun m => m.ID)
        = some (TfInt64.value 42)
      ∧ (PermissionResource.Create (exampleLibWith [("id", GoAny.str "42")])
        exampleClient () examplePermissionPlan).stateSet.map (fun m => m.ID)
        = some (TfInt64.value 42) :=
  ⟨(permission_create_decodes_id (exampleLibWith [("id", GoAny.float64 ((42 : Int) : ℚ))])
      exampleClient () () examplePermissionPlan 42 ⟨200, ""⟩
      [("id", GoAny.float64 ((42 : Int) : ℚ))]
      (by decide) (by decide) rfl (by decide) rfl (Or.inl rfl)).1,
   (permission_create_decodes_id (exampleLibWith [("id", GoAny.int 42)])
      exampleClient () () examplePermissionPlan 42 ⟨200, ""⟩ [("id", GoAny.int 42)]
      (by decide) (by decide) rfl (by decide) rfl (Or.inr (Or.inl rfl))).1,
   (permission_create_decodes_id (exampleLibWith [("id", GoAny.str "42")])
      exampleClient () () examplePermissionPlan 42 ⟨200, ""⟩ [("id", GoAny.str "42")]
      (by decide) (by decide) rfl (by decide) rfl (Or.inr (Or.inr (Or.inr rfl)))).1⟩

/-- C18, evaluated on the code: `PermissionResource.Read` only decodes an `id` that is a
float; an `id` that arrives as a string or as an integer leaves the tracked ID as it
was.  With the prior ID `7` and the fetched `id` the string `"42"`, the written state has
the ID `7`. -/
theorem permission_read_ignores_string_id :
    (∀ (lib : Lib) (ID : TfInt64) (s : String),
        PermissionResource.readDecodeID lib ID (GoAny.str s) = ID)
      ∧ (∀ (lib : Lib) (ID : TfInt64) (n : Int),
        PermissionResource.readDecodeID lib ID (GoAny.int n) = ID
          ∧ PermissionResource.readDecodeID lib ID (GoAny.int64 n) = ID)
      ∧ (PermissionResource.Read (exampleLibWith [("id", GoAny.str "42")])
          exampleClient () examplePermissionState).stateSet.map (fun m => m.ID)
          = some (TfInt64.value 7)
      ∧ (PermissionResource.Read (exampleLibWith [("id", GoAny.str "42")])
          exampleClient () examplePermissionState).diags = [] := by
  refine ⟨fun _ _ _ => rfl, fun _ _ _ => ⟨rfl, rfl⟩, ?_, ?_⟩
  · decide
  · decide

/-! ## Error responses on delete -/

theorem isNotFound_of_status_404 (x : String) :
    isNotFound ("directus api " ++ toString (404 : Int) ++ ": " ++ x) = true := by
  have h404 : toString (404 : Int) = "404" := by decide
  unfold isNotFound strings.Contains
  rw [decide_eq_true_eq, h404]
  refine ⟨"directus api ".toList, (": " ++ x).toList, ?_⟩
  simp [String.toList, String.data_append, List.append_assoc]

theorem parseResp_404 (lib : Lib) (body : String) (outNil : Bool) :
    ∃ err, parseResp lib ⟨404, body⟩ outNil = .error err ∧ isNotFound err = true := by
  refine ⟨"directus api " ++ toString (404 : Int) ++ ": " ++ lib.fmtV (lib.decodeErr body),
    ?_, isNotFound_of_status_404 _⟩
  simp [parseResp]

/-- C19 (idempotent 404 on delete): for every response body, when the DELETE request of
`RoleResource.Delete`, or of `PermissionResource.Delete`, is answered with status 404,
the operation reports no error diagnostic. -/
theorem delete_forgives_status_404 {σ : Type} (lib : Lib) (client : Transport σ)
    (remote remote1 remote2 : σ) (role : RoleModel) (permission : PermissionModel)
    (body1 body2 : String)
    (hrole : client remote ⟨"DELETE", "/roles/" ++ role.ID.ValueString, none⟩
      = (.ok ⟨404, body1⟩, remote1))
    (hpermission : client remote
      ⟨"DELETE", "/permissions/" ++ toString permission.ID.ValueInt64, none⟩
      = (.ok ⟨404, body2⟩, remote2)) :
    (RoleResource.Delete lib client remote role).diags = []
      ∧ (PermissionResource.Delete lib client remote permission).diags = [] := by
  obtain ⟨e1, he1, hn1⟩ := parseResp_404 lib body1 true
  obtain ⟨e2, he2, hn2⟩ := parseResp_404 lib body2 true
  constructor
  · unfold RoleResource.Delete
    simp [hrole, he1, hn1]
  · unfold PermissionResource.Delete
    simp [hpermission, he2, hn2]

/-- Witness of C19: against a remote side that answers 404, deleting the role `r1` and
deleting the permission `7` report nothing. -/
theorem delete_forgives_status_404_witness :
    (RoleResource.Delete exampleLib exampleNotFoundClient () exampleState).diags = []
      ∧ (PermissionResource.Delete exampleLib exampleNotFoundClient ()
          examplePermissionState).diags = [] :=
  delete_forgives_status_404 exampleLib exampleNotFoundClient () () () exampleState
    examplePermissionState "" "" rfl rfl

/-- C20, evaluated on the code: `isNotFound` looks for the text `404` anywhere in the
error, so a DELETE of `RoleResource.Delete` answered with status 500 and a body whose
decoded form prints with `404` in it is forgiven: no error diagnostic is reported. -/
theorem delete_forgives_404_in_body :
    parseResp exampleErrLib ⟨500, exampleErrBody⟩ true
        = .error "directus api 500: map[errors:[map[message:upstream 404]]]"
      ∧ isNotFound "directus api 500: map[errors:[map[message:upstream 404]]]" = true
      ∧ (RoleResource.Delete exampleErrLib exampleErrClient () exampleState).diags = [] := by
  have h : parseResp exampleErrLib ⟨500, exampleErrBody⟩ true
      = .error "directus api 500: map[errors:[map[message:upstream 404]]]" := by
    have h500 : toString (500 : Int) = "500" := by decide
    simp only [parseResp, exampleErrLib, h500]
    rfl
  have hn : isNotFound "directus api 500: map[errors:[map[message:upstream 404]]]" = true := by
    decide
  refine ⟨h, hn, ?_⟩
  unfold RoleResource.Delete
  simp [exampleErrClient, h, hn]

/-! ## Delete and read against error responses -/

/-- C21, evaluated on the code: `PolicyResource.Delete` and `FileResource.Delete` drop
the response without a look at its status, so whenever the transport returns a response,
whatever its status, they report nothing and remove the resource from the state; so they
do for the DELETE answered with status 500. -/
theorem policy_file_delete_ignore_status :
    (∀ (σ : Type) (client : Transport σ) (remote remote1 : σ) (state : PolicyModel)
        (resp : HttpResponse),
        client remote ⟨"DELETE", "/policies/" ++ state.ID.ValueString, none⟩
            = (.ok resp, remote1) →
          (PolicyResource.Delete client remote state).diags = []
            ∧ (PolicyResource.Delete client remote state).removed = true)
      ∧ (∀ (σ : Type) (client : Transport σ) (remote remote1 : σ) (state : FileModel)
        (resp : HttpResponse),
        client remote ⟨"DELETE", "/files/" ++ state.ID.ValueString, none⟩
            = (.ok resp, remote1) →
          (FileResource.Delete client remote state).diags = []
            ∧ (FileResource.Delete client remote state).removed = true)
      ∧ (PolicyResource.Delete exampleErrClient () examplePolicyState).diags = []
      ∧ (PolicyResource.Delete exampleErrClient () examplePolicyState).removed = true
      ∧ (FileResource.Delete exampleErrClient () exampleFileState).diags = []
      ∧ (FileResource.Delete exampleErrClient () exampleFileState).removed = true := by
  refine ⟨?_, ?_, rfl, rfl, rfl, rfl⟩
  · intro σ client remote remote1 state resp h
    unfold PolicyResource.Delete
    simp [h]
  · intro σ client remote remote1 state resp h
    unfold FileResource.Delete
    simp [h]

/-- C22 (permission read on 404): for every prior state, when the GET of
`PermissionResource.Read` is answered with status 404, the resource is removed from the
state, no state is written and no error diagnostic is reported. -/
theorem permission_read_404_removes {σ : Type} (lib : Lib) (client : Transport σ)
    (remote remote1 : σ) (state : PermissionModel) (body : String)
    (hget : client remote ⟨"GET", "/permissions/" ++ toString state.ID.ValueInt64, none⟩
      = (.ok ⟨404, body⟩, remote1)) :
    (PermissionResource.Read lib client remote state).removed = true
      ∧ (PermissionResource.Read lib client remote state).stateSet = none
      ∧ (PermissionResource.Read lib client remote state).diags = [] := by
  obtain ⟨e, he, hn⟩ := parseResp_404 lib body false
  unfold PermissionResource.Read
  simp [hget, he, hn]

/-- Witness of C22: reading the permission `7` against a remote side that answers 404
removes it and reports nothing. -/
theorem permission_read_404_removes_witness :
    (PermissionResource.Read exampleLib exampleNotFoundClient () examplePermissionState).removed
        = true
      ∧ (PermissionResource.Read exampleLib exampleNotFoundClient ()
          examplePermissionState).stateSet = none
      ∧ (PermissionResource.Read exampleLib exampleNotFoundClient ()
          examplePermissionState).diags = [] :=
  permission_read_404_removes exampleLib exampleNotFoundClient () () examplePermissionState ""
    rfl

/-- C23, evaluated on the code: when the GET of `refreshState` is answered with status
404, `refreshState` returns false without a diagnostic, but `RoleResource.Read` does not
look at that result: it writes the prior state back and does not remove the role. -/
theorem role_read_404_keeps_state :
    (∀ (σ : Type) (lib : Lib) (client : Transport σ) (remote remote1 : σ)
        (state : RoleModel) (body : String),
        client remote
            ⟨"GET", "/roles/" ++ state.ID.ValueString ++ "?fields=*,policies.policy.id", none⟩
            = (.ok ⟨404, body⟩, remote1) →
          (RoleResource.refreshState lib client remote state.ID.ValueString state).ok = false
            ∧ (RoleResource.Read lib client remote state).stateSet = some state
            ∧ (RoleResource.Read lib client remote state).removed = false
            ∧ (RoleResource.Read lib client remote state).diags = [])
      ∧ (RoleResource.Read exampleLib exampleNotFoundClient () exampleState).stateSet
          = some exampleState
      ∧ (RoleResource.Read exampleLib exampleNotFoundClient () exampleState).removed = false := by
  have hgen : ∀ (σ : Type) (lib : Lib) (client : Transport σ) (remote remote1 : σ)
      (state : RoleModel) (body : String),
      client remote
          ⟨"GET", "/roles/" ++ state.ID.ValueString ++ "?fields=*,policies.policy.id", none⟩
          = (.ok ⟨404, body⟩, remote1) →
        (RoleResource.refreshState lib client remote state.ID.ValueString state).ok = false
          ∧ (RoleResource.Read lib client remote state).stateSet = some state
          ∧ (RoleResource.Read lib client remote state).removed = false
          ∧ (RoleResource.Read lib client remote state).diags = [] := by
    intro σ lib client remote remote1 state body h
    obtain ⟨e, he, hn⟩ := parseResp_404 lib body false
    unfold RoleResource.Read RoleResource.refreshState
    simp [h, he, hn]
  refine ⟨hgen, ?_, ?_⟩
  · exact (hgen Unit exampleLib exampleNotFoundClient () () exampleState "" rfl).2.1
  · rfl

/-! ## The singleton settings -/

/-- C24 (singleton settings are only patched): `SettingResource.Delete` sends no request
and removes the resource from the state; `SettingResource.Create` sends the PATCH of
`/settings` and then, unless the PATCH failed, the GET of `/settings`, and nothing else:
never a POST or a DELETE. -/
theorem settings_only_patched {σ : Type} (lib : Lib) (client : Transport σ) (remote : σ)
    (plan : SettingModel) :
    (SettingResource.Delete remote).requests = []
      ∧ (SettingResource.Delete remote).removed = true
      ∧ (SettingResource.Delete remote).diags = []
      ∧ ((SettingResource.Create lib client remote plan).requests
            = [⟨"PATCH", "/settings", some (GoAny.map (SettingResource.createPayload plan))⟩]
          ∨ (SettingResource.Create lib client remote plan).requests
            = [⟨"PATCH", "/settings", some (GoAny.map (SettingResource.createPayload plan))⟩,
                ⟨"GET", "/settings", none⟩])
      ∧ (∀ (resp : HttpResponse) (remote1 : σ),
          client remote
              ⟨"PATCH", "/settings", some (GoAny.map (SettingResource.createPayload plan))⟩
              = (.ok resp, remote1) →
            resp.StatusCode < 300 →
            (SettingResource.Create lib client remote plan).requests
              = [⟨"PATCH", "/settings", some (GoAny.map (SettingResource.createPayload plan))⟩,
                  ⟨"GET", "/settings", none⟩])
      ∧ (∀ r ∈ (SettingResource.Create lib client remote plan).requests,
          r.method = "PATCH" ∨ r.method = "GET") := by
  have hread : ∀ (remote1 : σ),
      (SettingResource.readIntoState lib client remote1 plan).requests
        = [⟨"GET", "/settings", none⟩] := by
    intro remote1
    unfold SettingResource.readIntoState
    rcases hc : client remote1 ⟨"GET", "/settings", none⟩ with ⟨r | resp, remote2⟩
    · simp only [hc]
    · simp only [hc]
      cases parseResp lib resp false <;> rfl
  have hsucc : ∀ (resp : HttpResponse) (remote1 : σ),
      client remote
          ⟨"PATCH", "/settings", some (GoAny.map (SettingResource.createPayload plan))⟩
          = (.ok resp, remote1) →
        resp.StatusCode < 300 →
        (SettingResource.Create lib client remote plan).requests
          = [⟨"PATCH", "/settings", some (GoAny.map (SettingResource.createPayload plan))⟩,
              ⟨"GET", "/settings", none⟩] := by
    intro resp remote1 h hs
    have hp : parseResp lib resp true = .ok [] := by
      simp [parseResp, not_le.mpr hs]
    unfold SettingResource.Create
    simp only [h, hp, hread]
  have hcases : (SettingResource.Create lib client remote plan).requests
        = [⟨"PATCH", "/settings", some (GoAny.map (SettingResource.createPayload plan))⟩]
      ∨ (SettingResource.Create lib client remote plan).requests
        = [⟨"PATCH", "/settings", some (GoAny.map (SettingResource.createPayload plan))⟩,
            ⟨"GET", "/settings", none⟩] := by
    unfold SettingResource.Create
    rcases hc : client remote
        ⟨"PATCH", "/settings", some (GoAny.map (SettingResource.createPayload plan))⟩
      with ⟨r | resp, remote1⟩
    · simp only [hc]
      exact Or.inl trivial
    · simp only [hc]
      cases parseResp lib resp true with
      | error e => exact Or.inl rfl
      | ok d =>
        simp only [hread]
        exact Or.inr trivial
  refine ⟨rfl, rfl, rfl, hcases, hsucc, ?_⟩
  intro r hr
  rcases hcases with h | h <;> rw [h] at hr <;> simp at hr
  · rw [hr]; exact Or.inl rfl
  · rcases hr with hr | hr <;> rw [hr]
    · exact Or.inl rfl
    · exact Or.inr rfl

/-! ## Decoding into the state -/

/-- C27, as stated, fails: the boolean `true` is not a string, yet `strPtrToType` does
not return the null string for it but the string of its JSON encoding. -/
theorem strPtrToType_encodes_non_strings :
    strPtrToType exampleMarshalLib (GoAny.bool true) = TfString.value "true"
      ∧ strPtrToType exampleMarshalLib (GoAny.bool true) ≠ TfString.null := by
  constructor <;> decide

/-- C27, amended: `strPtrToType` is total, it never fails; for a wire value that is a
number, a boolean, an array or an object it returns the string of the value's JSON
encoding, and the null string only when that encoding fails; `nil` and the empty string
give the null string (a non-empty string is returned as it is). -/
theorem strPtrToType_non_string (lib : Lib) :
    (∀ q : ℚ, strPtrToType lib (GoAny.float64 q)
        = if lib.jsonMarshalErr (GoAny.float64 q) then TfString.null
          else TfString.value (lib.jsonMarshal (GoAny.float64 q)))
      ∧ (∀ b : Bool, strPtrToType lib (GoAny.bool b)
        = if lib.jsonMarshalErr (GoAny.bool b) then TfString.null
          else TfString.value (lib.jsonMarshal (GoAny.bool b)))
      ∧ (∀ l : List GoAny, strPtrToType lib (GoAny.slice l)
        = if lib.jsonMarshalErr (GoAny.slice l) then TfString.null
          else TfString.value (lib.jsonMarshal (GoAny.slice l)))
      ∧ (∀ m : List (String × GoAny), strPtrToType lib (GoAny.map m)
        = if lib.jsonMarshalErr (GoAny.map m) then TfString.null
          else TfString.value (lib.jsonMarshal (GoAny.map m)))
      ∧ strPtrToType lib GoAny.nil = TfString.null
      ∧ strPtrToType lib (GoAny.str "") = TfString.null
      ∧ (∀ s : String, s ≠ "" → strPtrToType lib (GoAny.str s) = TfString.value s) := by
  refine ⟨fun _ => rfl, fun _ => rfl, fun _ => rfl, fun _ => rfl, rfl, ?_, ?_⟩
  · simp [strPtrToType]
  · intro s hs
    simp [strPtrToType, hs]

/-- C28, evaluated on the code: `readIntoState` assigns `auth_login_attempts`,
`public_registration`, `public_registration_verify_email` and `accepted_terms` only when
the fetched record has them with the expected type; when the field is missing, null or of
another type the tracked field keeps its prior value.  With the prior value 25 and the
fetched `auth_login_attempts` null, the written state still has 25. -/
theorem setting_read_keeps_prior_values :
    (∀ (lib : Lib) (plan : SettingModel) (data : GoMap GoAny),
        (data.get? "auth_login_attempts" = none
            ∨ data.get? "auth_login_attempts" = some GoAny.nil
            ∨ (∃ s, data.get? "auth_login_attempts" = some (GoAny.str s))) →
          (SettingResource.readFields lib plan data).AuthLoginAttempts
            = plan.AuthLoginAttempts)
      ∧ (∀ (lib : Lib) (plan : SettingModel) (data : GoMap GoAny),
        (data.get? "public_registration" = none
            ∨ data.get? "public_registration" = some GoAny.nil
            ∨ (∃ s, data.get? "public_registration" = some (GoAny.str s))) →
          (SettingResource.readFields lib plan data).PublicRegistration
            = plan.PublicRegistration)
      ∧ (SettingResource.readIntoState
            (exampleLibWith [("auth_login_attempts", GoAny.nil)]) exampleClient ()
            exampleSettingState).stateSet.map (fun m => m.AuthLoginAttempts)
          = some (TfInt64.value 25)
      ∧ (SettingResource.readIntoState
            (exampleLibWith [("auth_login_attempts", GoAny.nil)]) exampleClient ()
            exampleSettingState).stateSet.map (fun m => m.PublicRegistration)
          = some (TfBool.value true)
      ∧ (SettingResource.readIntoState
            (exampleLibWith [("auth_login_attempts", GoAny.nil)]) exampleClient ()
            exampleSettingState).diags = [] := by
  refine ⟨?_, ?_, ?_, ?_, ?_⟩
  · intro lib plan data h
    simp only [SettingResource.readFields, readInt64]
    rcases h with h | h | ⟨s, h⟩ <;> rw [h]
  · intro lib plan data h
    simp only [SettingResource.readFields, readBool]
    rcases h with h | h | ⟨s, h⟩ <;> rw [h]
  · decide
  · decide
  · decide

/-! ## Create against update for the settings -/

/-- C29 (create and update encodings of settings agree): for every plan, the payload of
`SettingResource.Create` is the payload of `SettingResource.Update` for the same plan
without its null-valued entries. -/
theorem setting_create_is_update_without_nulls (plan : SettingModel) :
    SettingResource.createPayload plan
      = (SettingResource.updatePayload plan).filter (fun e => !e.2.isNil) := by
  unfold SettingResource.createPayload SettingResource.updatePayload
  simp only []
  repeat (first
    | refine create_step_string _ _ _ _
        (by
          simp only [keys_setStringOrNil, keys_setInt64OrNil, keys_setBoolOrNil]
          set_option maxRecDepth 8000 in decide) ?_
    | refine create_step_int64 _ _ _ _
        (by
          simp only [keys_setStringOrNil, keys_setInt64OrNil, keys_setBoolOrNil]
          set_option maxRecDepth 8000 in decide) ?_
    | refine create_step_bool _ _ _ _
        (by
          simp only [keys_setStringOrNil, keys_setInt64OrNil, keys_setBoolOrNil]
          set_option maxRecDepth 8000 in decide) ?_)
  exact create_step_string _ _ _ _ (by decide) rfl

/-! ## `RoleResource.Create` -/

theorem foldl_append_map {β γ : Type} (f : β → γ) (l : List β) (init : List γ) :
    l.foldl (fun acc x => acc ++ [f x]) init = init ++ l.map f := by
  induction l generalizing init with
  | nil => simp
  | cons x l ih => simp [List.foldl, ih]

theorem createObjs_eq (roleID : String) (policies : List String) :
    RoleResource.createObjs roleID policies
      = policies.map
          (fun pid => GoAny.map [("role", GoAny.str roleID), ("policy", GoAny.str pid)]) := by
  unfold RoleResource.createObjs
  rw [foldl_append_map]
  rfl

theorem refreshState_requests {σ : Type} (lib : Lib) (client : Transport σ) (remote : σ)
    (id : String) (rm : RoleModel) :
    (RoleResource.refreshState lib client remote id rm).requests
      = [⟨"GET", "/roles/" ++ id ++ "?fields=*,policies.policy.id", none⟩] := by
  unfold RoleResource.refreshState
  rcases hc : client remote ⟨"GET", "/roles/" ++ id ++ "?fields=*,policies.policy.id", none⟩
    with ⟨r | resp, remote1⟩
  · simp only [hc]
  · simp only [hc]
    cases parseResp lib resp false with
    | error e =>
      simp only []
      split <;> rfl
    | ok d => rfl

theorem refreshState_rm_ID {σ : Type} (lib : Lib) (client : Transport σ) (remote : σ)
    (id : String) (rm : RoleModel) :
    (RoleResource.refreshState lib client remote id rm).rm.ID = rm.ID := by
  unfold RoleResource.refreshState
  rcases hc : client remote ⟨"GET", "/roles/" ++ id ++ "?fields=*,policies.policy.id", none⟩
    with ⟨r | resp, remote1⟩
  · simp only [hc]
  · simp only [hc]
    cases parseResp lib resp false with
    | error e =>
      simp only []
      split <;> rfl
    | ok d => rfl

theorem createFinish_requests {σ : Type} (lib : Lib) (client : Transport σ) (remote : σ)
    (sent : List HttpRequest) (plan : RoleModel) :
    (RoleResource.createFinish lib client remote sent plan).requests
      = sent ++ [⟨"GET", "/roles/" ++ plan.ID.ValueString ++ "?fields=*,policies.policy.id",
          none⟩] := by
  unfold RoleResource.createFinish
  simp only [refreshState_requests]

theorem createFinish_stateSet {σ : Type} (lib : Lib) (client : Transport σ) (remote : σ)
    (sent : List HttpRequest) (plan : RoleModel) :
    (RoleResource.createFinish lib client remote sent plan).stateSet.map (fun m => m.ID)
      = some plan.ID := by
  unfold RoleResource.createFinish
  simp only [Option.map_some', refreshState_rm_ID]

theorem createCaptureID_str (plan : RoleModel) (data : GoMap GoAny) (v : String)
    (hid : GoAny.index data "id" = GoAny.str v) :
    RoleResource.createCaptureID plan data = { plan with ID := TfString.value v } := by
  unfold RoleResource.createCaptureID
  rw [hid]
  rfl

/-- C25, as stated, fails: when the `id` of the POST response is the number 5 and the
policy `p1` is declared, the role ID is not captured and the follow-up PATCH goes to
`/roles/` with an entry whose `role` is the empty string, not the new role ID. -/
theorem role_create_batch_without_id :
    (RoleResource.Create (exampleLibWith [("id", GoAny.float64 ((5 : Int) : ℚ))]) exampleClient ()
        examplePlan).requests
        = [ ⟨"POST", "/roles", some (GoAny.map (RoleResource.createPayload examplePlan))⟩,
            ⟨"PATCH", "/roles/", some (GoAny.map
              [ ("policies", GoAny.map
                  [ ("create", GoAny.slice
                      [GoAny.map [("role", GoAny.str ""), ("policy", GoAny.str "p1")]]),
                    ("update", GoAny.slice []),
                    ("delete", GoAny.slice []) ]) ])⟩,
            ⟨"GET", "/roles/?fields=*,policies.policy.id", none⟩ ]
      ∧ (RoleResource.Create (exampleLibWith [("id", GoAny.float64 ((5 : Int) : ℚ))])
          exampleClient () examplePlan).requests.map (fun r => r.path)
        = ["/roles", "/roles/", "/roles/?fields=*,policies.policy.id"]
      ∧ (RoleResource.Create (exampleLibWith [("id", GoAny.float64 ((5 : Int) : ℚ))])
          exampleClient () examplePlan).requests.map (fun r => r.path)
        ≠ ["/roles", "/roles/5", "/roles/5?fields=*,policies.policy.id"] := by
  refine ⟨rfl, ?_, ?_⟩ <;> decide

/-- C25, amended: after a successful POST in `RoleResource.Create` whose response
`data.id` is a string, the new role ID, if the declared policies are a non-empty
list `P`, the POST is followed by exactly one PATCH, of `/roles/<ID>`, whose
`policies.create` has one entry `{"role": ID, "policy": p}` per element `p` of `P`, in
order, and whose `update` and `delete` lists are empty (the only later request is the
refreshing GET); if the declared policies are null or empty, the POST is followed by the
refreshing GET only. -/
theorem role_create_attaches_policies {σ : Type} (lib : Lib) (client : Transport σ)
    (remote remote1 : σ) (plan : RoleModel) (resp : HttpResponse) (data : GoMap GoAny)
    (newID : String)
    (hpost : client remote
      ⟨"POST", "/roles", some (GoAny.map (RoleResource.createPayload plan))⟩
      = (.ok resp, remote1))
    (hstatus : resp.StatusCode < 300)
    (hdata : lib.decodeData resp.Body = .ok data)
    (hid : GoAny.index data "id" = GoAny.str newID) :
    (∀ P : List String, plan.Policies.IsNull = false → plan.Policies.ElementsAs = some P →
        P ≠ [] →
        ∃ rest : List HttpRequest,
          (RoleResource.Create lib client remote plan).requests
              = ⟨"POST", "/roles", some (GoAny.map (RoleResource.createPayload plan))⟩
                :: ⟨"PATCH", "/roles/" ++ newID, some (GoAny.map
                    [ ("policies", GoAny.map
                        [ ("create", GoAny.slice (P.map (fun pid =>
                            GoAny.map [("role", GoAny.str newID), ("policy", GoAny.str pid)]))),
                          ("update", GoAny.slice []),
                          ("delete", GoAny.slice []) ]) ])⟩
                :: rest
            ∧ ∀ r ∈ rest, r.method = "GET")
      ∧ ((plan.Policies.IsNull = true ∨ plan.Policies.ElementsAs = some []) →
        (RoleResource.Create lib client remote plan).requests
          = [ ⟨"POST", "/roles", some (GoAny.map (RoleResource.createPayload plan))⟩,
              ⟨"GET", "/roles/" ++ newID ++ "?fields=*,policies.policy.id", none⟩ ]) := by
  have hp : parseResp lib resp false = .ok data := by
    simp [parseResp, not_le.mpr hstatus, hdata]
  have hcap := createCaptureID_str plan data newID hid
  constructor
  · intro P hnull hP hne
    have hlen : P.length > 0 := List.length_pos.mpr hne
    unfold RoleResource.Create
    simp only [hpost, hp, hcap, hnull, hP, hlen, Bool.not_false, if_true, createObjs_eq,
      RoleResource.createPoliciesRequest, TfString.ValueString]
    rcases hc : client remote1 ⟨"PATCH", "/roles/" ++ newID, some (GoAny.map
        [ ("policies", GoAny.map
            [ ("create", GoAny.slice (P.map (fun pid =>
                GoAny.map [("role", GoAny.str newID), ("policy", GoAny.str pid)]))),
              ("update", GoAny.slice []),
              ("delete", GoAny.slice []) ]) ])⟩ with ⟨e | resp2, remote2⟩
    · exact ⟨[], rfl, by simp⟩
    · simp only []
      cases parseResp lib resp2 true with
      | error e => exact ⟨[], rfl, by simp⟩
      | ok d =>
        simp only [createFinish_requests]
        exact ⟨_, rfl, by simp⟩
  · intro h
    unfold RoleResource.Create
    simp only [hpost, hp, hcap]
    rcases h with h | h
    · simp [h, createFinish_requests, TfString.ValueString]
    · by_cases hn : plan.Policies.IsNull = true <;>
        simp [h, hn, createFinish_requests, TfString.ValueString]

/-- Witness of C25: with the policy `p1` declared and the role ID `r9` assigned, the
POST is followed by the PATCH of `/roles/r9` that attaches `p1`, and then only by GET
requests. -/
theorem role_create_attaches_policies_witness :
    ∃ rest : List HttpRequest,
      (RoleResource.Create (exampleLibWith [("id", GoAny.str "r9")]) exampleClient ()
          examplePlan).requests
          = ⟨"POST", "/roles", some (GoAny.map (RoleResource.createPayload examplePlan))⟩
            :: ⟨"PATCH", "/roles/" ++ "r9", some (GoAny.map
                [ ("policies", GoAny.map
                    [ ("create", GoAny.slice (["p1"].map (fun pid =>
                        GoAny.map [("role", GoAny.str "r9"), ("policy", GoAny.str pid)]))),
                      ("update", GoAny.slice []),
                      ("delete", GoAny.slice []) ]) ])⟩
            :: rest
        ∧ ∀ r ∈ rest, r.method = "GET" :=
  (role_create_attaches_policies (exampleLibWith [("id", GoAny.str "r9")]) exampleClient () ()
    examplePlan ⟨200, ""⟩ [("id", GoAny.str "r9")] "r9" rfl (by decide) rfl rfl).1
    ["p1"] rfl rfl (by simp)

/-- C26, as stated, fails: when the `id` of the POST response is the number 5, the role
ID is not captured: the refreshing GET goes to `/roles/` with an empty ID and the
recorded ID is the planned, still unknown one, not `5`. -/
theorem role_create_drops_numeric_id :
    (RoleResource.Create (exampleLibWith [("id", GoAny.float64 ((5 : Int) : ℚ))]) exampleClient ()
        exampleRolePlan).requests.map (fun r => r.path)
        = ["/roles", "/roles/?fields=*,policies.policy.id"]
      ∧ (RoleResource.Create (exampleLibWith [("id", GoAny.float64 ((5 : Int) : ℚ))])
          exampleClient () exampleRolePlan).stateSet.map (fun m => m.ID)
        = some TfString.unknown
      ∧ (RoleResource.Create (exampleLibWith [("id", GoAny.float64 ((5 : Int) : ℚ))])
          exampleClient () exampleRolePlan).stateSet.map (fun m => m.ID)
        ≠ some (TfString.value "5") := by
  refine ⟨?_, ?_, ?_⟩ <;> decide

theorem createFinish_frame {σ : Type} (lib : Lib) (client : Transport σ) (remote : σ)
    (sent : List HttpRequest) (plan : RoleModel) (v : String)
    (hID : plan.ID = TfString.value v)
    (hsent : ∀ r ∈ sent, r.method = "POST" ∨ r.path = "/roles/" ++ v) :
    (∀ m, (RoleResource.createFinish lib client remote sent plan).stateSet = some m →
        m.ID = TfString.value v)
      ∧ (∀ r ∈ (RoleResource.createFinish lib client remote sent plan).requests,
        r.method = "POST" ∨ r.path = "/roles/" ++ v
          ∨ r.path = "/roles/" ++ v ++ "?fields=*,policies.policy.id") := by
  constructor
  · intro m hm
    have h := createFinish_stateSet lib client remote sent plan
    rw [hm] at h
    simp only [Option.map_some', Option.some.injEq] at h
    rw [h, hID]
  · intro r hr
    rw [createFinish_requests, hID] at hr
    simp only [List.mem_append, List.mem_singleton, TfString.ValueString] at hr
    rcases hr with hr | hr
    · rcases hsent r hr with h | h
      · exact Or.inl h
      · exact Or.inr (Or.inl h)
    · rw [hr]
      exact Or.inr (Or.inr rfl)

/-- C26, amended: for every successful POST `/roles` response whose `data.id` is a
string, the role ID recorded by `RoleResource.Create` is that string, and every request
after the POST goes to `/roles/<that string>`. -/
theorem role_create_captures_string_id {σ : Type} (lib : Lib) (client : Transport σ)
    (remote remote1 : σ) (plan : RoleModel) (resp : HttpResponse) (data : GoMap GoAny)
    (v : String)
    (hpost : client remote
      ⟨"POST", "/roles", some (GoAny.map (RoleResource.createPayload plan))⟩
      = (.ok resp, remote1))
    (hstatus : resp.StatusCode < 300)
    (hdata : lib.decodeData resp.Body = .ok data)
    (hid : GoAny.index data "id" = GoAny.str v) :
    (∀ m, (RoleResource.Create lib client remote plan).stateSet = some m →
        m.ID = TfString.value v)
      ∧ (∀ r ∈ (RoleResource.Create lib client remote plan).requests,
        r.method = "POST" ∨ r.path = "/roles/" ++ v
          ∨ r.path = "/roles/" ++ v ++ "?fields=*,policies.policy.id")
      ∧ (plan.Policies.IsNull = true →
        (RoleResource.Create lib client remote plan).stateSet.map (fun m => m.ID)
          = some (TfString.value v)) := by
  have hp : parseResp lib resp false = .ok data := by
    simp [parseResp, not_le.mpr hstatus, hdata]
  have hcap := createCaptureID_str plan data v hid
  have hfin1 := createFinish_frame lib client remote1
    [⟨"POST", "/roles", some (GoAny.map (RoleResource.createPayload plan))⟩]
    { plan with ID := TfString.value v } v rfl (by simp)
  refine ⟨?_, ?_, ?_⟩
  · unfold RoleResource.Create
    simp only [hpost, hp, hcap]
    split
    · split
      · split
        · split
          · intro m hm
            cases hm
          · split
            · intro m hm
              cases hm
            · exact (createFinish_frame lib client _ _ _ v rfl
                (by simp [RoleResource.createPoliciesRequest, TfString.ValueString])).1
        · exact hfin1.1
      · exact hfin1.1
    · exact hfin1.1
  · unfold RoleResource.Create
    simp only [hpost, hp, hcap]
    split
    · split
      · split
        · split
          · simp [RoleResource.createPoliciesRequest, TfString.ValueString]
          · split
            · simp [RoleResource.createPoliciesRequest, TfString.ValueString]
            · exact (createFinish_frame lib client _ _ _ v rfl
                (by simp [RoleResource.createPoliciesRequest, TfString.ValueString])).2
        · exact hfin1.2
      · exact hfin1.2
    · exact hfin1.2
  · intro hn
    unfold RoleResource.Create
    simp only [hpost, hp, hcap, hn, Bool.not_true, Bool.false_eq_true, if_false]
    exact createFinish_stateSet lib client remote1 _ _

/-- Witness of C26: with the response `id` the string `r9` and no policies declared, the
recorded role ID is `r9`. -/
theorem role_create_captures_string_id_witness :
    (RoleResource.Create (exampleLibWith [("id", GoAny.str "r9")]) exampleClient ()
        exampleRolePlan).stateSet.map (fun m => m.ID)
      = some (TfString.value "r9") :=
  (role_create_captures_string_id (exampleLibWith [("id", GoAny.str "r9")]) exampleClient () ()
    exampleRolePlan ⟨200, ""⟩ [("id", GoAny.str "r9")] "r9" rfl (by decide) rfl rfl).2.2 rfl

/-! ## The observed policy set of `refreshState` -/

theorem mem_firstOccurrences (l : List String) (x : String) :
    x ∈ firstOccurrences l ↔ x ∈ l := by
  induction l with
  | nil => simp [firstOccurrences]
  | cons a l ih =>
    simp only [firstOccurrences, List.mem_cons, List.mem_filter, decide_eq_true_eq, ih]
    by_cases h : x = a
    · simp [h]
    · simp [h]

theorem nodup_firstOccurrences (l : List String) : (firstOccurrences l).Nodup := by
  induction l with
  | nil => simp [firstOccurrences]
  | cons a l ih =>
    simp only [firstOccurrences, List.nodup_cons, List.mem_filter, decide_eq_true_eq]
    exact ⟨fun h => h.2 rfl, ih.filter _⟩

theorem sublist_firstOccurrences (l : List String) : List.Sublist (firstOccurrences l) l := by
  induction l with
  | nil => simp [firstOccurrences]
  | cons a l ih =>
    simp only [firstOccurrences]
    exact List.Sublist.cons₂ a ((List.filter_sublist _).trans ih)

theorem refreshFold_aux (ext : GoAny → Option String)
    (fC : List String → GoAny → List String)
    (fR : GoMap Unit × List TfString → GoAny → GoMap Unit × List TfString)
    (hC : ∀ cur p, fC cur p = match ext p with
      | some id => cur ++ [id]
      | none => cur)
    (hR : ∀ seen elems p, fR (seen, elems) p = match ext p with
      | some id =>
        if id ≠ "" then
          if !seen.has id then (seen.set id (), elems ++ [TfString.value id])
          else (seen, elems)
        else (seen, elems)
      | none => (seen, elems))
    (v : List GoAny) (seen : GoMap Unit) (E cur : List String)
    (hinv : ∀ x, seen.has x = true ↔ x ∈ E) :
    ∃ ids : List String,
      v.foldl fC cur = cur ++ ids
        ∧ (v.foldl fR (seen, E.map TfString.value)).2
          = (E ++ (firstOccurrences (ids.filter (fun x => decide (x ≠ "")))).filter
              (fun x => decide (x ∉ E))).map TfString.value := by
  induction v generalizing seen E cur with
  | nil => exact ⟨[], by simp, by simp [firstOccurrences]⟩
  | cons p v ih =>
    rw [List.foldl_cons, List.foldl_cons, hC, hR]
    cases hp : ext p with
    | none => exact ih seen E cur hinv
    | some id =>
      simp only []
      by_cases h1 : id = ""
      · obtain ⟨ids, hc, hr⟩ := ih seen E (cur ++ [id]) hinv
        refine ⟨id :: ids, ?_, ?_⟩
        · rw [hc]
          simp
        · rw [if_neg (by simpa using h1), hr]
          simp [List.filter, h1]
      · by_cases h2 : id ∈ E
        · obtain ⟨ids, hc, hr⟩ := ih seen E (cur ++ [id]) hinv
          refine ⟨id :: ids, ?_, ?_⟩
          · rw [hc]
            simp
          · have hs : seen.has id = true := (hinv _).2 h2
            rw [if_pos h1, if_neg (by simp [hs]), hr]
            congr 2
            simp only [List.filter_cons, ne_eq, h1, not_false_eq_true, decide_True, if_true,
              firstOccurrences, h2, not_true_eq_false, decide_False, Bool.false_eq_true,
              if_false, List.filter_filter]
            apply List.filter_congr
            intro x _
            by_cases hx : x = id
            · simp [hx, h2]
            · simp [hx]
        · have hs : seen.has id = false := by
            cases hh : seen.has id
            · rfl
            · exact absurd ((hinv _).1 hh) h2
          have hinv' : ∀ x, (seen.set id ()).has x = true ↔ x ∈ E ++ [id] := by
            intro x
            rw [GoMap.has_set, hinv x]
            simp only [List.mem_append, List.mem_singleton]
            tauto
          obtain ⟨ids, hc, hr⟩ := ih (seen.set id ()) (E ++ [id]) (cur ++ [id]) hinv'
          refine ⟨id :: ids, ?_, ?_⟩
          · rw [hc]
            simp
          · have hmap : List.map TfString.value E ++ [TfString.value id]
                = List.map TfString.value (E ++ [id]) := by
              simp
            rw [if_pos h1, if_pos (by simp [hs]), hmap, hr]
            congr 1
            simp only [List.filter_cons, ne_eq, h1, not_false_eq_true, decide_True, if_true,
              firstOccurrences, h2, List.filter_filter, List.append_assoc,
              List.singleton_append]
            congr 2
            apply List.filter_congr
            intro x _
            by_cases hx : x = id
            · simp [hx]
            · simp [hx]

theorem refreshPolicies_eq (lib : Lib) (data : GoMap GoAny) (v : List GoAny)
    (hv : (GoAny.index data "policies").asSlice = some v) :
    RoleResource.refreshPolicies lib data
      = TfSet.known ((firstOccurrences
          ((RoleResource.current lib data).filter (fun x => decide (x ≠ "")))).map
            TfString.value) := by
  obtain ⟨ids, hc, hr⟩ := refreshFold_aux
    (fun p =>
      match p.asMap with
      | some m =>
        match (GoAny.index m "policy").asMap with
        | some policy => some (str lib (GoAny.index policy "id"))
        | none => none
      | none => none)
    (fun current p =>
      match p.asMap with
      | some m =>
        match (GoAny.index m "policy").asMap with
        | some policy => current ++ [str lib (GoAny.index policy "id")]
        | none => current
      | none => current)
    (fun (st : GoMap Unit × List TfString) p =>
      let seen := st.1
      let elems := st.2
      match p.asMap with
      | some m =>
        match (GoAny.index m "policy").asMap with
        | some policy =>
          let id := str lib (GoAny.index policy "id")
          if id ≠ "" then
            if !seen.has id then (seen.set id (), elems ++ [TfString.value id])
            else (seen, elems)
          else (seen, elems)
        | none => (seen, elems)
      | none => (seen, elems))
    (by
      intro cur p
      cases h1 : p.asMap with
      | none => simp only [h1]
      | some m => cases h2 : (GoAny.index m "policy").asMap <;> simp only [h1, h2])
    (by
      intro seen elems p
      cases h1 : p.asMap with
      | none => simp only [h1]
      | some m => cases h2 : (GoAny.index m "policy").asMap <;> simp only [h1, h2])
    v [] [] [] (by intro x; simp [GoMap.has, GoMap.get?_nil])
  have hcur : RoleResource.current lib data = ids := by
    unfold RoleResource.current
    simp only [hv]
    rw [hc]
    rfl
  unfold RoleResource.refreshPolicies
  simp only [hv]
  rw [hcur]
  have hr' := hr
  simp only [List.map_nil, List.nil_append, List.not_mem_nil, not_false_eq_true, decide_True,
    List.filter_true] at hr'
  rw [← hr']

/-- C30 (the observed policy set is clean): for every response record with a `policies`
array, the policies value produced by `refreshState` is the set of the non-empty policy
IDs of the response, each exactly once, in first-occurrence order: it has no duplicate
and no empty string, and it has exactly the non-empty IDs of the response; when the
record has no `policies` array the value is null. -/
theorem refresh_policies_clean (lib : Lib) (data : GoMap GoAny) :
    (∀ v, (GoAny.index data "policies").asSlice = some v →
        RoleResource.refreshPolicies lib data
          = TfSet.known ((firstOccurrences
              ((RoleResource.current lib data).filter (fun x => decide (x ≠ "")))).map
                TfString.value))
      ∧ ((GoAny.index data "policies").asSlice = none →
        RoleResource.refreshPolicies lib data = TfSet.null)
      ∧ (firstOccurrences
          ((RoleResource.current lib data).filter (fun x => decide (x ≠ "")))).Nodup
      ∧ "" ∉ firstOccurrences
          ((RoleResource.current lib data).filter (fun x => decide (x ≠ "")))
      ∧ (∀ x, x ∈ firstOccurrences
            ((RoleResource.current lib data).filter (fun x => decide (x ≠ "")))
          ↔ (x ∈ RoleResource.current lib data ∧ x ≠ ""))
      ∧ List.Sublist
          (firstOccurrences ((RoleResource.current lib data).filter (fun x => decide (x ≠ ""))))
          (RoleResource.current lib data)
      ∧ firstOccurrences ["p1", "p2", "p1", "p3", "p2"] = ["p1", "p2", "p3"] := by
  refine ⟨refreshPolicies_eq lib data, ?_, nodup_firstOccurrences _, ?_, ?_, ?_, by decide⟩
  · intro h
    unfold RoleResource.refreshPolicies
    simp only [h]
  · rw [mem_firstOccurrences]
    simp
  · intro x
    rw [mem_firstOccurrences]
    simp
  · exact (sublist_firstOccurrences _).trans (List.filter_sublist _)

end Directus
